import Mathlib

/-!
Verification development for the xrdtools repository (Panalytical XRDML
measurement decoder and coordinate transforms).

The decoder `read_xrdml` from `src/xrdtools/io.py` is embedded shallowly:
the XML file, after parsing, is modelled as a `Doc` value (the tree-query
results the Python code extracts), numpy arrays as the `Arr` type
(0-d scalar, 1-D vector, 2-D matrix of rationals), and the dynamically
typed Python data dictionary as the `Data` structure whose fields are
`Option`-valued (a `none` field models an absent dictionary key).
Fallible Python operations (KeyError, AttributeError, IndexError,
broadcasting errors) are modelled with `Except String`.
-/

namespace Xrdtools

/-- A numpy ndarray as it occurs in the decoder: 0-d, 1-D or 2-D, over ℚ. -/
inductive Arr where
  | scalar : ℚ → Arr
  | vec : List ℚ → Arr
  | mat : List (List ℚ) → Arr
deriving DecidableEq, Repr

/-- A value stored in the Python data dictionary: either a plain Python
list of arrays (the initial `[]` buckets and the incidental buckets) or
an ndarray. -/
inductive Val where
  | pylist : List Arr → Val
  | arr : Arr → Val
deriving DecidableEq, Repr

/-- `ndarray.size`: the total number of elements. -/
def Arr.size : Arr → Nat
  | .scalar _ => 1
  | .vec xs => xs.length
  | .mat m => (m.map List.length).sum

/-- `np.atleast_2d`, as used by `np.vstack`. -/
def Arr.atleast2d : Arr → List (List ℚ)
  | .scalar v => [[v]]
  | .vec xs => [xs]
  | .mat m => m

/-- `np.vstack((a, b))`: stack two arrays vertically; all rows must have
the same length. -/
def vstack (a b : Arr) : Except String Arr :=
  match (a.atleast2d ++ b.atleast2d).map List.length with
  | [] => .ok (.mat (a.atleast2d ++ b.atleast2d))
  | c :: cs =>
      if cs.all (· = c) then .ok (.mat (a.atleast2d ++ b.atleast2d))
      else .error "vstack dimension mismatch"

/-- numpy elementwise binary op with 1-D broadcasting (`(n,) op (m,)`
valid iff `n = m` or one of them is 1). -/
def broadcastOp (f : ℚ → ℚ → ℚ) (xs ys : List ℚ) : Except String (List ℚ) :=
  if xs.length = ys.length then .ok (List.zipWith f xs ys)
  else if ys.length = 1 then .ok (xs.map (fun x => f x (ys.headD 0)))
  else if xs.length = 1 then .ok (ys.map (fun y => f (xs.headD 0) y))
  else .error "operands could not be broadcast together"

/-- `a[i]` on an ndarray (`a` 1-D gives a scalar, 2-D gives a row;
indexing a 0-d array raises). -/
def Arr.pyIndex : Arr → Nat → Except String Arr
  | .scalar _, _ => .error "IndexError: too many indices for 0-d array"
  | .vec xs, i => match xs.get? i with
      | some v => .ok (.scalar v)
      | none => .error "IndexError: index out of bounds"
  | .mat m, i => match m.get? i with
      | some r => .ok (.vec r)
      | none => .error "IndexError: index out of bounds"

/-- Multiply every element of an array by a rational (`arr * c` / `arr *= c`). -/
def Arr.scale (c : ℚ) : Arr → Arr
  | .scalar v => .scalar (v * c)
  | .vec xs => .vec (xs.map (· * c))
  | .mat m => .mat (m.map (·.map (· * c)))

/-! ## Axis resolution (`_read_axis_info` in io.py) -/

/-- One child element of a `dataPoints/positions` block. -/
inductive PosChild where
  | listPositions : List ℚ → PosChild
  | startPosition : ℚ → PosChild
  | endPosition : ℚ → PosChild
  | commonPosition : ℚ → PosChild
  | unsupportedTag : PosChild
deriving DecidableEq, Repr

/-- A `dataPoints/positions` element: axis name, unit attribute, children. -/
structure AxisPos where
  axis : String
  unit : String
  children : List PosChild
deriving DecidableEq, Repr

/-- `np.linspace(s, e, n)` over ℚ (exact affine interpolation; `n = 1`
gives `[s]` because the zero division of the step contributes nothing). -/
def linspace (s e : ℚ) (n : Nat) : List ℚ :=
  (List.range n).map (fun (i : Nat) => s + (i : ℚ) * (e - s) / ((n : ℚ) - 1))

/-- Loop state of `_read_axis_info`: the (possibly missing) `info['data']`
entry plus the `unspaced` and `isarray` flags. -/
structure AxisInfoState where
  data : Option Arr
  unspaced : Bool
  isarray : Bool
deriving DecidableEq, Repr

/-- `info['data'][i] = v` (assignment into the zeros(2) buffer; indexing a
0-d array raises, as in numpy). -/
def setIdx (a : Arr) (i : Nat) (v : ℚ) : Except String Arr :=
  match a with
  | .vec xs => if i < xs.length then .ok (.vec (xs.set i v)) else .error "IndexError: assignment index out of bounds"
  | _ => .error "IndexError: too many indices for array"

/-- One iteration of the `for child in uid_child` loop of `_read_axis_info`. -/
def readAxisChild (st : AxisInfoState) (c : PosChild) : Except String AxisInfoState :=
  match c with
  | .listPositions xs => .ok { st with data := some (.vec xs), unspaced := false }
  | .startPosition s => do
      let d := st.data.getD (.vec [0, 0])
      let d ← setIdx d 0 s
      .ok { st with data := some d }
  | .endPosition e => do
      let d := st.data.getD (.vec [0, 0])
      let d ← setIdx d 1 e
      .ok { st with data := some d }
  | .commonPosition v => .ok { st with data := some (.scalar v), isarray := false }
  | .unsupportedTag => .ok { st with data := some (.vec []) }

/-- `_read_axis_info(uid_pos, n)`: resolve one axis position block against
the number `n` of data points.  Returns the axis name and its data array. -/
def readAxisInfo (pos : AxisPos) (n : Nat) : Except String (String × Arr) := do
  let st ← pos.children.foldlM readAxisChild ⟨none, true, true⟩
  if st.unspaced ∧ n ≠ 0 ∧ st.isarray then
    match st.data with
    | none => .error "KeyError: data"
    | some d => do
        let s ← d.pyIndex 0
        let e ← d.pyIndex 1
        match s, e with
        | .scalar sv, .scalar ev => .ok (pos.axis, .vec (linspace sv ev n))
        | _, _ => .error "linspace on non scalar endpoints"
  else
    match st.data with
    | none => .error "KeyError: data"
    | some d => .ok (pos.axis, d)

/-! ## Scan extraction (`_get_scan_data` in io.py) -/

/-- One `<scan>` element as the Python code queries it. -/
structure ScanElem where
  status : String
  scanAxis : String
  mode : String
  intensities : List ℚ
  intensitiesUnit : String
  countingTimes : List ℚ
  commonCountingTime : List ℚ
  positions : List AxisPos
deriving DecidableEq, Repr

/-- The per-scan dictionary produced by `_get_scan_data`: the axis entries
are only present when a matching positions block exists. -/
structure ScanRecord where
  status : String
  scanAxis : String
  data : Arr
  time : Arr
  twoTheta : Option Arr := none
  omega : Option Arr := none
  phi : Option Arr := none
  psi : Option Arr := none
  posx : Option Arr := none
  posy : Option Arr := none
  posz : Option Arr := none
deriving DecidableEq, Repr

/-- Store a resolved axis under its name (the `if info['axis'] == ...`
chain; unsupported axis names are dropped with a diagnostic). -/
def storeAxis (rec : ScanRecord) (name : String) (a : Arr) : ScanRecord :=
  if name = "2Theta" then { rec with twoTheta := some a }
  else if name = "Omega" then { rec with omega := some a }
  else if name = "Phi" then { rec with phi := some a }
  else if name = "Psi" then { rec with psi := some a }
  else if name = "X" then { rec with posx := some a }
  else if name = "Y" then { rec with posy := some a }
  else if name = "Z" then { rec with posz := some a }
  else rec

/-- `data /= time`: in-place elementwise division, so the divisor must
broadcast to the shape of `data` (equal length or length 1). -/
def divInPlace (xs ys : List ℚ) : Except String (List ℚ) :=
  if ys.length = xs.length then .ok (List.zipWith (· / ·) xs ys)
  else if ys.length = 1 then .ok (xs.map (fun x => x / ys.headD 0))
  else .error "operands could not be broadcast together"

/-- The counting-time basis: per-point counting times in pre-set-counts
mode, the single common counting time otherwise. -/
def timeBasis (s : ScanElem) : List ℚ :=
  if s.mode = "Pre-set counts" then s.countingTimes else s.commonCountingTime

/-- `_get_scan_data`: extract status, scan axis, cps-normalized
intensities, time basis and resolved axis arrays from one scan element. -/
def getScanData (s : ScanElem) : Except String ScanRecord :=
  (if s.intensitiesUnit = "counts" then divInPlace s.intensities (timeBasis s)
   else .ok s.intensities) >>= fun dataList =>
  s.positions.foldlM
    (fun r pos =>
      readAxisInfo pos dataList.length >>= fun info => .ok (storeAxis r info.1 info.2))
    { status := s.status, scanAxis := s.scanAxis,
      data := .vec dataList, time := .vec (timeBasis s) }

/-! ## The document-level data dictionary (`read_xrdml` in io.py) -/

/-- The measurement document, as the tree queries of `read_xrdml` see it
after XML parsing.  `stepAxisAttr` is the `measurementStepAxis` attribute
(read only for step-axis measurement types). -/
structure Doc where
  measType : String
  stepAxisAttr : String
  scans : List ScanElem
  kType : String
  kAlpha1 : ℚ
  kAlpha2 : ℚ
  kBeta : ℚ
  kAlphaRatio : ℚ
deriving DecidableEq, Repr

/-- The Python `data` dictionary of `read_xrdml`.  `none` models an absent
key (either never set or removed with `pop`).  Field names follow the
dictionary keys; `twoTheta` stands for the key `2Theta`, `posx`/`posy`/
`posz` for `X`/`Y`/`Z`, and `xlable` is the misspelled key written by the
source for single-stage scan axes. -/
structure Data where
  measType : String
  scanAxis : Option String := none
  stepAxis : Option String := none
  scannb : Option (List Nat) := none
  iscannb : Option (List Nat) := none
  data : Option Val := none
  time : Option Val := none
  twoTheta : Option Val := none
  omega : Option Val := none
  phi : Option Val := none
  psi : Option Val := none
  posx : Option Val := none
  posy : Option Val := none
  posz : Option Val := none
  idata : Option (List Arr) := none
  itime : Option (List Arr) := none
  i2Theta : Option (List Arr) := none
  iOmega : Option (List Arr) := none
  iPhi : Option (List Arr) := none
  iPsi : Option (List Arr) := none
  iX : Option (List Arr) := none
  iY : Option (List Arr) := none
  iZ : Option (List Arr) := none
  kType : Option String := none
  kAlpha1 : Option ℚ := none
  kAlpha2 : Option ℚ := none
  kBeta : Option ℚ := none
  kAlphaRatio : Option ℚ := none
  lambdaEff : Option ℚ := none
  x : Option Val := none
  xlabel : Option String := none
  xlable : Option String := none
  ylabel : Option String := none
deriving DecidableEq, Repr

/-- The nine keys iterated over for the primary (completed) bucket. -/
inductive Key where
  | data | time | twoTheta | omega | phi | psi | posx | posy | posz
deriving DecidableEq, Repr

def getVal (d : Data) : Key → Option Val
  | .data => d.data
  | .time => d.time
  | .twoTheta => d.twoTheta
  | .omega => d.omega
  | .phi => d.phi
  | .psi => d.psi
  | .posx => d.posx
  | .posy => d.posy
  | .posz => d.posz

def setVal (d : Data) (k : Key) (v : Val) : Data :=
  match k with
  | .data => { d with data := some v }
  | .time => { d with time := some v }
  | .twoTheta => { d with twoTheta := some v }
  | .omega => { d with omega := some v }
  | .phi => { d with phi := some v }
  | .psi => { d with psi := some v }
  | .posx => { d with posx := some v }
  | .posy => { d with posy := some v }
  | .posz => { d with posz := some v }

/-- `scan[key]` for the nine keys (a missing axis key raises KeyError). -/
def ScanRecord.getKey (r : ScanRecord) : Key → Option Arr
  | .data => some r.data
  | .time => some r.time
  | .twoTheta => r.twoTheta
  | .omega => r.omega
  | .phi => r.phi
  | .psi => r.psi
  | .posx => r.posx
  | .posy => r.posy
  | .posz => r.posz

/-- `_append2arr(data, scan, key)`: the empty-list placeholder is seeded
with the scan value, anything else is vertically stacked. -/
def append2arr (d : Data) (scan : ScanRecord) (k : Key) : Except String Data :=
  match scan.getKey k with
  | none => .error "KeyError: scan key"
  | some a =>
    match getVal d k with
    | some (.pylist []) => .ok (setVal d k (.arr a))
    | some (.arr b) => do
        let c ← vstack b a
        .ok (setVal d k (.arr c))
    | some (.pylist (_ :: _)) => .error "vstack on python list"
    | none => .error "KeyError: data key"

/-- Append an optional axis value to the incidental bucket
(`if key in scan.keys(): data[ikey].append(scan[key])`). -/
def pushOptI (o : Option Arr) (cur : Option (List Arr)) : Option (List Arr) :=
  match o with
  | some a => some ((cur.getD []) ++ [a])
  | none => cur

/-- One iteration of the scan-classification loop (io.py lines 319-342):
a scan is appended to the primary bucket iff the document measurement type
is `Scan` or the scan status is `Completed`, otherwise to the incidental
bucket. -/
def scanStep (d : Data) (k : Nat) (s : ScanElem) : Except String Data := do
  let scan ← getScanData s
  if d.measType = "Scan" ∨ scan.status = "Completed" then
    match d.scannb with
    | none => .error "KeyError: scannb"
    | some l =>
      let d := { d with scannb := some (l ++ [k]) }
      [Key.data, Key.time, Key.twoTheta, Key.omega, Key.phi, Key.psi,
       Key.posx, Key.posy, Key.posz].foldlM (fun d key => append2arr d scan key) d
  else
    match d.iscannb with
    | none => .error "KeyError: iscannb"
    | some l =>
      match scan.twoTheta with
      | none => .error "KeyError: 2Theta"
      | some a2 =>
        match scan.omega with
        | none => .error "KeyError: Omega"
        | some aOm =>
          .ok { d with iscannb := some (l ++ [k]),
                       idata := some ((d.idata.getD []) ++ [scan.data]),
                       itime := some ((d.itime.getD []) ++ [scan.time]),
                       i2Theta := some ((d.i2Theta.getD []) ++ [a2]),
                       iOmega := some ((d.iOmega.getD []) ++ [aOm]),
                       iPhi := pushOptI scan.phi d.iPhi,
                       iPsi := pushOptI scan.psi d.iPsi,
                       iX := pushOptI scan.posx d.iX,
                       iY := pushOptI scan.posy d.iY,
                       iZ := pushOptI scan.posz d.iZ }

/-- The `for k in range(nb_scans)` loop, carrying the running index. -/
def scanLoop : Data → Nat → List ScanElem → Except String Data
  | d, _, [] => .ok d
  | d, k, s :: rest => do
      let d' ← scanStep d k s
      scanLoop d' (k + 1) rest

/-- Lone-incomplete-scan promotion (io.py lines 344-353): when the primary
scan list is empty and exactly one incidental scan exists, every non-empty
incidental bucket (a Python list of arrays) is moved verbatim into the
corresponding primary key and the incidental bucket is emptied. -/
def promote (d : Data) : Data :=
  if d.scannb = some [] ∧ (d.iscannb.getD []).length = 1 then
    let d := if (d.iscannb.getD []) ≠ [] then
        { d with scannb := d.iscannb, iscannb := some [] } else d
    let d := if (d.idata.getD []) ≠ [] then
        { d with data := some (.pylist (d.idata.getD [])), idata := some [] } else d
    let d := if (d.itime.getD []) ≠ [] then
        { d with time := some (.pylist (d.itime.getD [])), itime := some [] } else d
    let d := if (d.i2Theta.getD []) ≠ [] then
        { d with twoTheta := some (.pylist (d.i2Theta.getD [])), i2Theta := some [] } else d
    let d := if (d.iOmega.getD []) ≠ [] then
        { d with omega := some (.pylist (d.iOmega.getD [])), iOmega := some [] } else d
    let d := if (d.iPhi.getD []) ≠ [] then
        { d with phi := some (.pylist (d.iPhi.getD [])), iPhi := some [] } else d
    let d := if (d.iPsi.getD []) ≠ [] then
        { d with psi := some (.pylist (d.iPsi.getD [])), iPsi := some [] } else d
    let d := if (d.iX.getD []) ≠ [] then
        { d with posx := some (.pylist (d.iX.getD [])), iX := some [] } else d
    let d := if (d.iY.getD []) ≠ [] then
        { d with posy := some (.pylist (d.iY.getD [])), iY := some [] } else d
    let d := if (d.iZ.getD []) ≠ [] then
        { d with posz := some (.pylist (d.iZ.getD [])), iZ := some [] } else d
    d
  else d

/-- `data[key] == []` in Python: true only for the empty-list placeholder
(comparing an ndarray against `[]` yields a falsy result). -/
def isEmptyPlaceholder : Option Val → Bool
  | some (.pylist []) => true
  | _ => false

/-- Redundant-information removal (io.py lines 381-385): pop the optional
stage axes that stayed empty, and pop every incidental key once the
incidental scan list is empty. -/
def popRedundant (d : Data) : Data :=
  let d := if isEmptyPlaceholder d.phi then { d with phi := none } else d
  let d := if isEmptyPlaceholder d.psi then { d with psi := none } else d
  let d := if isEmptyPlaceholder d.posx then { d with posx := none } else d
  let d := if isEmptyPlaceholder d.posy then { d with posy := none } else d
  let d := if isEmptyPlaceholder d.posz then { d with posz := none } else d
  if d.iscannb = some [] then
    { d with iscannb := none, idata := none, itime := none, i2Theta := none,
             iOmega := none, iPhi := none, iPsi := none, iX := none, iY := none, iZ := none }
  else d

/-- `np.ones_like(base) * v`. -/
def onesLikeMul (base : Arr) (v : ℚ) : Arr :=
  match base with
  | .scalar _ => .scalar v
  | .vec xs => .vec (xs.map (fun _ => v))
  | .mat m => .mat (m.map (·.map (fun _ => v)))

/-- The single element of a size-1 ndarray. -/
def singleValue : Arr → Option ℚ
  | .scalar v => some v
  | .vec [v] => some v
  | .mat [[v]] => some v
  | _ => none

/-- `_get_array_for_single_value(data, key)`: a missing key is returned
unchanged; calling `.size` on a Python list raises AttributeError; a
size-1 array is broadcast to the shape of `data['data']`; an array with
more than one row or element, all equal to the first, is collapsed to its
first item. -/
def getArrForKey (d : Data) (k : Key) : Except String Data :=
  match getVal d k with
  | none => .ok d
  | some (.pylist _) => .error "AttributeError: list object has no attribute size"
  | some (.arr a) =>
    if a.size = 1 then
      match singleValue a, d.data with
      | some v, some (.arr base) => .ok (setVal d k (.arr (onesLikeMul base v)))
      | _, _ => .error "ones_like failed"
    else
      match a with
      | .vec xs =>
        if 1 < xs.length ∧ xs.all (· = xs.headD 0) then
          .ok (setVal d k (.arr (.scalar (xs.headD 0))))
        else .ok d
      | .mat rows =>
        if 1 < rows.length ∧ rows.all (· = rows.headD []) then
          .ok (setVal d k (.arr (.vec (rows.headD []))))
        else .ok d
      | .scalar _ => .ok d

/-- The collapse phase of io.py lines 387-395: `time` always, `2Theta` and
`Omega` only outside area measurements, the stage axes only when the
document has more than one scan. -/
def collapsePhase (nbScans : Nat) (d : Data) : Except String Data :=
  getArrForKey d .time >>= fun d =>
  (if d.measType ≠ "Area measurement" then
    getArrForKey d .twoTheta >>= fun dA => getArrForKey dA .omega
   else pure d) >>= fun d =>
  (if 1 < nbScans then
    [Key.phi, Key.psi, Key.posx, Key.posy, Key.posz].foldlM getArrForKey d
   else pure d)

/-- The in-place accumulation `for k in arange(1, len(scannb)):
data['data'][0] += data['data'][k]` (row 0 becomes the sum of the first
`k` rows; 1-D arrays accumulate their leading elements instead). -/
def sumIntoFirst (a : Arr) (k : Nat) : Except String Arr :=
  match a with
  | .mat (r :: rs) =>
      if k ≤ (r :: rs).length then do
        let first ← (rs.take (k - 1)).foldlM (fun acc row => broadcastOp (· + ·) acc row) r
        .ok (.mat (first :: rs))
      else .error "IndexError: row index out of bounds"
  | .mat [] => .error "IndexError: empty array"
  | .vec (x :: xs) =>
      if k ≤ (x :: xs).length then
        .ok (.vec ((((x :: xs).take k).sum) :: xs))
      else .error "IndexError: element index out of bounds"
  | .vec [] => .error "IndexError: empty array"
  | .scalar _ => .error "IndexError: too many indices for 0-d array"

/-- `arr / len(scannb)` applied to `data['data'][0]`. -/
def divByCount (a : Arr) (k : Nat) : Arr := a.scale (1 / (k : ℚ))

/-- The `Repeated scan` reduction (io.py lines 399-410): sum the stacked
cps rows, divide by the number of primary scans, re-collapse every axis,
multiply the time basis by the scan count, and drop the per-scan index. -/
def repeatedBlock (d : Data) : Except String Data :=
  if d.measType = "Repeated scan" then
    match d.scannb with
    | none => .error "KeyError: scannb"
    | some ns =>
      match d.data with
      | some (.arr a) => do
          let summed ← sumIntoFirst a ns.length
          let first ← summed.pyIndex 0
          let d := { d with data := some (.arr (divByCount first ns.length)) }
          let d ← [Key.twoTheta, Key.omega, Key.phi, Key.psi,
                   Key.posx, Key.posy, Key.posz].foldlM getArrForKey d
          match d.time with
          | some (.arr t) =>
              .ok { d with time := some (.arr (t.scale (ns.length : ℚ))), scannb := none }
          | some (.pylist _) => .error "list repetition not modelled"
          | none => .error "KeyError: time"
      | some (.pylist []) => .error "IndexError: list index out of range"
      | some (.pylist (_ :: _)) => .error "list arithmetic on python list"
      | none => .error "KeyError: data"
  else pure d

/-- Wavelength resolution (io.py lines 420-427): `K-Alpha 1` selects
kAlpha1, `K-Alpha` the ratio-weighted combination divided by 1.5, and any
other tag falls back to kAlpha1 after a diagnostic (total, never raises). -/
def resolveLambda (kType : String) (ka1 ka2 ratio : ℚ) : ℚ :=
  if kType = "K-Alpha 1" then ka1
  else if kType = "K-Alpha" then (ka1 + ratio * ka2) / (3 / 2)
  else ka1

/-- The wavelength phase: store the wavelength block and the effective
lambda. -/
def wavelengthPhase (doc : Doc) (d : Data) : Data :=
  { d with kType := some doc.kType, kAlpha1 := some doc.kAlpha1,
           kAlpha2 := some doc.kAlpha2, kBeta := some doc.kBeta,
           kAlphaRatio := some doc.kAlphaRatio,
           lambdaEff := some (resolveLambda doc.kType doc.kAlpha1 doc.kAlpha2 doc.kAlphaRatio) }

/-- `data['x'] = data[key]` (KeyError when the key was popped). -/
def assignX (d : Data) (k : Key) : Except String Data :=
  match getVal d k with
  | some v => .ok { d with x := some v }
  | none => .error "KeyError: x source"

/-- The stage-axis name selecting the dictionary key `data[data['scanAxis']]`. -/
def keyOfStage (sa : String) : Key :=
  if sa = "Phi" then .phi else if sa = "Psi" then .psi
  else if sa = "X" then .posx else if sa = "Y" then .posy else .posz

/-- The scan-axis label state machine (io.py lines 431-460).  Note the
single-stage branch writes the misspelled key `xlable`, exactly as the
source does. -/
def scanAxisLabels (d : Data) : Except String Data :=
  match d.scanAxis with
  | none => .ok d
  | some sa =>
    if sa = "Gonio" then
      if d.measType = "Scan" ∨ d.measType = "Repeated scan" then
        assignX { d with xlabel := some "2Theta-Theta" } .twoTheta
      else .ok { d with xlabel := some "2Theta-Theta" }
    else if sa = "2Theta" ∨ sa = "2Theta-Omega" then
      if d.measType = "Scan" ∨ d.measType = "Repeated scan" then
        assignX { d with xlabel := some sa } .twoTheta
      else .ok { d with xlabel := some sa }
    else if sa = "Omega" ∨ sa = "Omega-2Theta" then
      if d.measType = "Scan" ∨ d.measType = "Repeated scan" then
        assignX { d with xlabel := some sa } .omega
      else .ok { d with xlabel := some sa }
    else if sa = "Reciprocal Space" then
      if d.measType = "Scan" ∨ d.measType = "Repeated scan" then
        assignX { d with xlabel := some "Omega" } .omega
      else .ok { d with xlabel := some "Omega" }
    else if sa = "Phi" ∨ sa = "Psi" ∨ sa = "X" ∨ sa = "Y" ∨ sa = "Z" then
      if d.measType = "Scan" then
        assignX { d with xlable := some sa } (keyOfStage sa)
      else .ok { d with xlable := some sa }
    else
      .ok { d with xlabel := some "unknown" }

/-- The step-axis label state machine (io.py lines 471-487). -/
def stepAxisLabels (d : Data) : Data :=
  match d.stepAxis with
  | none => d
  | some st =>
    if st = "Gonio" then { d with ylabel := some "2Theta-Theta" }
    else if st = "2Theta" ∨ st = "2Theta-Omega" then { d with ylabel := some st }
    else if st = "Omega" ∨ st = "Omega-2Theta" then { d with ylabel := some st }
    else if st = "Phi" ∨ st = "Psi" ∨ st = "X" ∨ st = "Y" ∨ st = "Z" then
      { d with ylabel := some st }
    else { d with ylabel := some "unknown" }

/-- The label phase runs only when the document has scans. -/
def labelsPhase (nbScans : Nat) (d : Data) : Except String Data :=
  if 0 < nbScans then do
    let d ← scanAxisLabels d
    pure (stepAxisLabels d)
  else pure d

/-! ## Area-measurement shape reconciliation (io.py lines 499-507) -/

/-- `arr.shape[1]`: the column count of a 2-D array (raises on fewer
dimensions, as indexing the shape tuple does). -/
def cols2d : Arr → Except String Nat
  | .mat rows => .ok ((rows.headD []).length)
  | _ => .error "IndexError: tuple index out of range"

/-- `np.transpose` of a 2-D array (rectangular input). -/
def transposeL (m : List (List ℚ)) : List (List ℚ) :=
  (List.range ((m.headD []).length)).map (fun j => m.map (fun r => r.getD j 0))

/-- `tmp[:, k] = src`: write `src` into column `k` of every row. -/
def writeColumn (tmp : List (List ℚ)) (k : Nat) (src : List ℚ) : List (List ℚ) :=
  List.zipWith (fun row v => row.set k v) tmp src

/-- The column-filling loop `for k in range(dim_2t[1]): tmp[:, k] =
data['Omega'].T`, starting from `np.empty_like(data['2Theta'])` (modelled
as a zero matrix of the same shape, every entry of which is overwritten). -/
def fillColumns (init : List (List ℚ)) (ncols : Nat) (src : List ℚ) : List (List ℚ) :=
  (List.range ncols).foldl (fun tmp k => writeColumn tmp k src) init

/-- The broadcast of `data['Omega'].T` onto a column of height `m`: numpy
accepts a 2-D source only when its leading dimension is 1, and the row
must match the column height (or itself have length 1). -/
def broadcastSourceRow (srcRows : List (List ℚ)) (m : Nat) : Except String (List ℚ) :=
  match srcRows with
  | [r] =>
      if r.length = m then .ok r
      else if r.length = 1 then .ok (List.replicate m (r.headD 0))
      else .error "could not broadcast input array"
  | _ => .error "could not broadcast input array"

/-- The area-measurement fix-up: when the stacked `2Theta` and `Omega`
grids disagree in column count and the scan/step axes are `2Theta`/`Omega`,
replace `Omega` by a `2Theta`-shaped matrix whose every column is the
transposed `Omega`. -/
def areaPhase (d : Data) : Except String Data :=
  if d.measType = "Area measurement" then
    match d.twoTheta with
    | some (.arr t) =>
      (match d.omega with
       | some (.arr o) => do
          let ct ← cols2d t
          let co ← cols2d o
          if ct ≠ co ∧ d.scanAxis = some "2Theta" ∧ d.stepAxis = some "Omega" then
            match t, o with
            | .mat tm, .mat om => do
                let src ← broadcastSourceRow (transposeL om) tm.length
                let tmp := fillColumns (tm.map (·.map (fun _ => 0))) ct src
                .ok { d with omega := some (.arr (.mat tmp)) }
            | _, _ => .error "unreachable shapes"
          else .ok d
       | some (.pylist _) => .error "AttributeError: list object has no attribute shape"
       | none => .error "KeyError: Omega")
    | some (.pylist _) => .error "AttributeError: list object has no attribute shape"
    | none => .error "KeyError: 2Theta"
  else pure d

/-! ## The full decoder -/

/-- The initial data dictionary: scan bookkeeping keys set to empty
placeholders, step axis recorded only for step-axis measurement types,
scan axis taken from the first scan when one exists. -/
def initData (doc : Doc) : Data :=
  { measType := doc.measType,
    stepAxis := if doc.measType ≠ "Scan" ∧ doc.measType ≠ "Repeated scan"
                then some doc.stepAxisAttr else none,
    scanAxis := (doc.scans.head?).map (·.scanAxis),
    scannb := some [], iscannb := some [],
    data := some (.pylist []), time := some (.pylist []),
    twoTheta := some (.pylist []), omega := some (.pylist []),
    phi := some (.pylist []), psi := some (.pylist []),
    posx := some (.pylist []), posy := some (.pylist []), posz := some (.pylist []),
    idata := some [], itime := some [], i2Theta := some [], iOmega := some [],
    iPhi := some [], iPsi := some [], iX := some [], iY := some [], iZ := some [] }

/-- `read_xrdml`, from the parsed document onwards: classify and stack the
scans, promote a lone incomplete scan, drop empty keys, collapse
single-valued arrays, reduce repeated scans, resolve the wavelength,
derive labels and reconcile area-measurement shapes. -/
def read_xrdml (doc : Doc) : Except String Data := do
  let nbScans := doc.scans.length
  let d ← scanLoop (initData doc) 0 doc.scans
  let d := promote d
  let d := popRedundant d
  let d ← collapsePhase nbScans d
  let d ← repeatedBlock d
  let d := wavelengthPhase doc d
  let d ← labelsPhase nbScans d
  areaPhase d

/-! ## Result accessors (used to state the theorems) -/

def okData : Except String Data → Option Data
  | .ok d => some d
  | .error _ => none

def errOf : Except String Data → Option String
  | .ok _ => none
  | .error e => some e

def isOkE (e : Except String Data) : Bool := (okData e).isSome

/-! ## Concrete example documents -/

/-- Constant position blocks for the stage axes, as area and point scans
record them. -/
def stageAxes : List AxisPos :=
  [⟨"Psi", "deg", [.commonPosition 0]⟩,
   ⟨"X", "mm", [.commonPosition 0]⟩,
   ⟨"Y", "mm", [.commonPosition 0]⟩,
   ⟨"Z", "mm", [.commonPosition 0]⟩]

/-- A document with a single aborted scan and a non-`Scan` measurement
type: the lone-incomplete-scan promotion applies to it. -/
def exC2Doc : Doc :=
  { measType := "Area measurement", stepAxisAttr := "Omega",
    scans := [{ status := "Aborted", scanAxis := "2Theta", mode := "",
                intensities := [1, 2], intensitiesUnit := "counts per second",
                countingTimes := [], commonCountingTime := [1],
                positions := ⟨"2Theta", "deg", [.listPositions [10, 20]]⟩ ::
                             ⟨"Omega", "deg", [.commonPosition 5]⟩ ::
                             ⟨"Phi", "deg", [.commonPosition 0]⟩ :: stageAxes }],
    kType := "K-Alpha 1", kAlpha1 := 154 / 100, kAlpha2 := 154 / 100,
    kBeta := 139 / 100, kAlphaRatio := 1 / 2 }

/-- A document with zero scan elements. -/
def exC10Doc : Doc :=
  { measType := "Scan", stepAxisAttr := "", scans := [],
    kType := "K-Alpha 1", kAlpha1 := 154 / 100, kAlpha2 := 154 / 100,
    kBeta := 139 / 100, kAlphaRatio := 1 / 2 }

/-- A single-scan document whose scan axis is the stage axis `Phi`. -/
def exPhiDoc : Doc :=
  { measType := "Scan", stepAxisAttr := "",
    scans := [{ status := "Completed", scanAxis := "Phi", mode := "",
                intensities := [5, 6, 7], intensitiesUnit := "counts per second",
                countingTimes := [], commonCountingTime := [1],
                positions := ⟨"2Theta", "deg", [.commonPosition 10]⟩ ::
                             ⟨"Omega", "deg", [.commonPosition 5]⟩ ::
                             ⟨"Phi", "deg", [.listPositions [1, 2, 3]]⟩ :: stageAxes }],
    kType := "K-Alpha 1", kAlpha1 := 154 / 100, kAlpha2 := 154 / 100,
    kBeta := 139 / 100, kAlphaRatio := 1 / 2 }

/-- The same document with an unrecognized scan-axis name. -/
def exUnknownAxisDoc : Doc :=
  { exPhiDoc with scans := exPhiDoc.scans.map (fun s => { s with scanAxis := "Banana" }) }

/-- An area-measurement document whose stacked `2Theta` grid has all-equal
elements. -/
def exC4Doc : Doc :=
  { measType := "Area measurement", stepAxisAttr := "Omega",
    scans := List.replicate 2
      { status := "Completed", scanAxis := "2Theta", mode := "",
        intensities := [1, 2], intensitiesUnit := "counts per second",
        countingTimes := [], commonCountingTime := [1],
        positions := ⟨"2Theta", "deg", [.listPositions [10, 10]]⟩ ::
                     ⟨"Omega", "deg", [.commonPosition 5]⟩ ::
                     ⟨"Phi", "deg", [.commonPosition 0]⟩ :: stageAxes },
    kType := "K-Alpha 1", kAlpha1 := 154 / 100, kAlpha2 := 154 / 100,
    kBeta := 139 / 100, kAlphaRatio := 1 / 2 }

/-- A repeated-scan document with a single primary scan carrying the cps
row `[1, 3]`. -/
def exC3Doc : Doc :=
  { measType := "Repeated scan", stepAxisAttr := "",
    scans := [{ status := "Completed", scanAxis := "2Theta", mode := "",
                intensities := [1, 3], intensitiesUnit := "counts per second",
                countingTimes := [], commonCountingTime := [1],
                positions := ⟨"2Theta", "deg", [.commonPosition 10]⟩ ::
                             ⟨"Omega", "deg", [.commonPosition 5]⟩ ::
                             ⟨"Phi", "deg", [.commonPosition 0]⟩ :: stageAxes }],
    kType := "K-Alpha 1", kAlpha1 := 154 / 100, kAlpha2 := 154 / 100,
    kBeta := 139 / 100, kAlphaRatio := 1 / 2 }

/-- Does the field hold a 0-d (scalar) ndarray? -/
def isScalarField : Option Val → Bool
  | some (.arr (.scalar _)) => true
  | _ => false

/-! ## Theorems for the claims -/

/-- C2: the claim says a document with zero completed scans, a non-`Scan`
measurement type and exactly one (incomplete) scan decodes to a dataset
with primary scan count 1 and no incidental fields.  The code instead
raises: the promotion moves the incidental Python lists into the primary
keys, and `_get_array_for_single_value` then calls `.size` on the `time`
list, an AttributeError.  This theorem evaluates the decoder at such a
document and shows it fails with exactly that error. -/
theorem C2_lone_incomplete_scan_promotion_raises :
    errOf (read_xrdml exC2Doc) = some "AttributeError: list object has no attribute size" := by
  decide

/-- C10: for every document with zero scan elements the decoder raises
instead of returning a dataset: the `time` entry is still the empty
Python list when `_get_array_for_single_value` reads its `.size`
attribute. -/
theorem C10_zero_scans_always_raise (doc : Doc) (h : doc.scans = []) :
    read_xrdml doc = .error "AttributeError: list object has no attribute size" := by
  unfold read_xrdml
  rw [h]
  rfl

/-- Witness for C10 at a concrete scan-less document. -/
theorem C10_zero_scans_always_raise_witness :
    exC10Doc.scans = [] ∧
      read_xrdml exC10Doc = .error "AttributeError: list object has no attribute size" :=
  ⟨rfl, C10_zero_scans_always_raise exC10Doc rfl⟩

/-- C8: the claim says the returned `xlabel` equals the axis name for
single-stage scan axes (`Phi`, `Psi`, `X`, `Y`, `Z`).  The source instead
writes the misspelled key `xlable` in that branch, so `xlabel` is absent;
the fallback to `unknown` for unrecognized axis names does hold and the
decode completes.  This theorem evaluates the decoder on a `Phi`-axis
document and on an unrecognized-axis document. -/
theorem C8_single_stage_axis_label_misspelled :
    (okData (read_xrdml exPhiDoc)).map (fun d => d.xlable) = some (some "Phi") ∧
    (okData (read_xrdml exPhiDoc)).map (fun d => d.xlabel) = some none ∧
    (okData (read_xrdml exUnknownAxisDoc)).map (fun d => d.xlabel) = some (some "unknown") ∧
    isOkE (read_xrdml exUnknownAxisDoc) = true := by
  decide

/-- C4 counterexample: an area-measurement document whose stacked `2Theta`
grid has all elements equal to 10 decodes to a dataset whose `2Theta`
field is still the full 2-D array, not the scalar 10 the claim predicts:
the collapse is skipped for `Area measurement`. -/
theorem C4_counterexample_area_two_theta_not_collapsed :
    (okData (read_xrdml exC4Doc)).map (fun d => d.twoTheta)
      = some (some (.arr (.mat [[10, 10], [10, 10]]))) ∧
    Val.arr (Arr.mat [[10, 10], [10, 10]]) ≠ Val.arr (Arr.scalar 10) := by
  decide

/-- C3 counterexample: a `Repeated scan` document with a single primary
scan carrying the two-point cps row `[1, 3]` decodes with a 0-d scalar
intensity field (`data['data'][0] / 1`, the first sample), not the
two-element element-wise mean `[1, 3]` the claim predicts for every
`k ≥ 1`. -/
theorem C3_counterexample_single_repeat_not_mean :
    (okData (read_xrdml exC3Doc)).map (fun d => isScalarField d.data) = some true ∧
    isScalarField (some (.arr (.vec [1, 3]))) = false := by
  decide

/-! ## Bind decomposition and phase-preservation lemmas -/

theorem exceptBind_ok {α β : Type} {e : Except String α} {f : α → Except String β} {b : β}
    (h : e >>= f = .ok b) : ∃ a, e = .ok a ∧ f a = .ok b := by
  cases e with
  | ok a => exact ⟨a, rfl, h⟩
  | error msg => simp [Bind.bind, Except.bind] at h

theorem assignX_lambdaEff {d d' : Data} {k : Key} (h : assignX d k = .ok d') :
    d'.lambdaEff = d.lambdaEff := by
  unfold assignX at h
  split at h
  · cases h
    rfl
  · cases h

set_option maxHeartbeats 1000000 in
theorem scanAxisLabels_lambdaEff {d d' : Data} (h : scanAxisLabels d = .ok d') :
    d'.lambdaEff = d.lambdaEff := by
  unfold scanAxisLabels at h
  split at h
  · cases h
    rfl
  · split_ifs at h <;>
      first
        | (cases h; rfl)
        | (rw [assignX_lambdaEff h])

theorem stepAxisLabels_lambdaEff (d : Data) : (stepAxisLabels d).lambdaEff = d.lambdaEff := by
  unfold stepAxisLabels
  split
  · rfl
  · split_ifs <;> rfl

theorem labelsPhase_lambdaEff {n : Nat} {d d' : Data} (h : labelsPhase n d = .ok d') :
    d'.lambdaEff = d.lambdaEff := by
  unfold labelsPhase at h
  split_ifs at h
  · obtain ⟨a, ha, hb⟩ := exceptBind_ok h
    cases hb
    rw [stepAxisLabels_lambdaEff, scanAxisLabels_lambdaEff ha]
  · cases h
    rfl

theorem areaPhase_lambdaEff {d d' : Data} (h : areaPhase d = .ok d') :
    d'.lambdaEff = d.lambdaEff := by
  unfold areaPhase at h
  split_ifs at h
  · split at h <;> try cases h
    split at h <;> try cases h
    obtain ⟨ct, hct, h⟩ := exceptBind_ok h
    obtain ⟨co, hco, h⟩ := exceptBind_ok h
    split_ifs at h
    · split at h
      · obtain ⟨src, hsrc, h⟩ := exceptBind_ok h
        cases h
        rfl
      · cases h
    · cases h
      rfl
  · cases h
    rfl

theorem read_xrdml_lambdaEff {doc : Doc} {d : Data} (h : read_xrdml doc = .ok d) :
    d.lambdaEff = some (resolveLambda doc.kType doc.kAlpha1 doc.kAlpha2 doc.kAlphaRatio) := by
  unfold read_xrdml at h
  obtain ⟨d1, h1, h⟩ := exceptBind_ok h
  obtain ⟨d4, h4, h⟩ := exceptBind_ok h
  obtain ⟨d5, h5, h⟩ := exceptBind_ok h
  obtain ⟨d7, h7, h⟩ := exceptBind_ok h
  rw [areaPhase_lambdaEff h, labelsPhase_lambdaEff h7]
  rfl

/-- C5: for every document with a wavelength block, the decoded effective
wavelength is kAlpha1 when the intended tag is `K-Alpha 1`, the
ratio-weighted combination `(kAlpha1 + ratio*kAlpha2)/1.5` when the tag is
`K-Alpha`, and falls back to kAlpha1 for every other tag; the resolution
itself is a total function and never raises. -/
theorem C5_wavelength_resolution (doc : Doc) (h : isOkE (read_xrdml doc) = true) :
    (doc.kType = "K-Alpha 1" →
      (okData (read_xrdml doc)).map (fun d => d.lambdaEff) = some (some doc.kAlpha1)) ∧
    (doc.kType = "K-Alpha" →
      (okData (read_xrdml doc)).map (fun d => d.lambdaEff)
        = some (some ((doc.kAlpha1 + doc.kAlphaRatio * doc.kAlpha2) / (3 / 2)))) ∧
    (doc.kType ≠ "K-Alpha 1" → doc.kType ≠ "K-Alpha" →
      (okData (read_xrdml doc)).map (fun d => d.lambdaEff) = some (some doc.kAlpha1)) := by
  cases hr : read_xrdml doc with
  | error e =>
      rw [hr] at h
      simp [isOkE, okData] at h
  | ok d =>
      have hl := read_xrdml_lambdaEff hr
      refine ⟨fun hk => ?_, fun hk => ?_, fun hk1 hk2 => ?_⟩ <;>
        simp [okData, hl, resolveLambda, *]

/-- Witness for C5 at a concrete document with intended tag `K-Alpha 1`. -/
theorem C5_wavelength_resolution_witness :
    isOkE (read_xrdml exPhiDoc) = true ∧
      ((exPhiDoc.kType = "K-Alpha 1" →
        (okData (read_xrdml exPhiDoc)).map (fun d => d.lambdaEff) = some (some exPhiDoc.kAlpha1)) ∧
      (exPhiDoc.kType = "K-Alpha" →
        (okData (read_xrdml exPhiDoc)).map (fun d => d.lambdaEff)
          = some (some ((exPhiDoc.kAlpha1 + exPhiDoc.kAlphaRatio * exPhiDoc.kAlpha2) / (3 / 2)))) ∧
      (exPhiDoc.kType ≠ "K-Alpha 1" → exPhiDoc.kType ≠ "K-Alpha" →
        (okData (read_xrdml exPhiDoc)).map (fun d => d.lambdaEff) = some (some exPhiDoc.kAlpha1))) :=
  ⟨by decide, C5_wavelength_resolution exPhiDoc (by decide)⟩

/-! ## Linspace properties (claim C6) -/

theorem linspace_length (s e : ℚ) (n : Nat) : (linspace s e n).length = n := by
  rw [linspace, List.length_map, List.length_range]

theorem linspace_getElem? (s e : ℚ) (n i : Nat) (hi : i < n) :
    (linspace s e n)[i]? = some (s + i * (e - s) / ((n : ℚ) - 1)) := by
  have hlen : i < (linspace s e n).length := by
    rw [linspace_length]
    exact hi
  rw [List.getElem?_eq_getElem hlen]
  simp only [linspace, List.getElem_map, List.getElem_range]

/-- C6: an axis position block holding a start/end range, resolved against
a required length n ≥ 2, produces exactly the n-point inclusive linear
interpolation: length n, first element = start, last element = end, and
strictly monotonic in the direction of (end - start). -/
theorem C6_range_axis_resolution (name u : String) (s e : ℚ) (n : Nat) (hn : 2 ≤ n) :
    readAxisInfo ⟨name, u, [.startPosition s, .endPosition e]⟩ n
      = .ok (name, .vec (linspace s e n)) ∧
    (linspace s e n).length = n ∧
    (linspace s e n).head? = some s ∧
    (linspace s e n).getLast? = some e ∧
    (s < e → (linspace s e n).Pairwise (· < ·)) ∧
    (e < s → (linspace s e n).Pairwise (· > ·)) := by
  have hn0 : n ≠ 0 := by omega
  have h2 : (2 : ℚ) ≤ (n : ℚ) := by exact_mod_cast hn
  have hpos : (0 : ℚ) < (n : ℚ) - 1 := by linarith
  have hne : ((n : ℚ) - 1) ≠ 0 := ne_of_gt hpos
  refine ⟨?_, linspace_length s e n, ?_, ?_, ?_, ?_⟩
  · simp [readAxisInfo, readAxisChild, setIdx, Arr.pyIndex, hn0,
      List.foldlM, Bind.bind, Except.bind, pure, Except.pure]
  · rw [List.head?_eq_getElem?, linspace_getElem? s e n 0 (by omega)]
    norm_num
  · rw [List.getLast?_eq_getElem?, linspace_length,
        linspace_getElem? s e n (n - 1) (by omega)]
    have hc : ((n - 1 : Nat) : ℚ) = (n : ℚ) - 1 := by
      push_cast [Nat.cast_sub (by omega : 1 ≤ n)]
      ring
    rw [hc]
    field_simp
  · intro hlt
    rw [linspace, List.pairwise_map]
    refine (List.pairwise_lt_range n).imp ?_
    intro a b hab
    have hd : 0 < (e - s) / ((n : ℚ) - 1) := div_pos (by linarith) hpos
    have hcast : (a : ℚ) < (b : ℚ) := by exact_mod_cast hab
    calc s + a * (e - s) / ((n : ℚ) - 1)
        = s + a * ((e - s) / ((n : ℚ) - 1)) := by ring
      _ < s + b * ((e - s) / ((n : ℚ) - 1)) := by
          have := mul_lt_mul_of_pos_right hcast hd
          linarith
      _ = s + b * (e - s) / ((n : ℚ) - 1) := by ring
  · intro hlt
    rw [linspace, List.pairwise_map]
    refine (List.pairwise_lt_range n).imp ?_
    intro a b hab
    have hd : (e - s) / ((n : ℚ) - 1) < 0 := div_neg_of_neg_of_pos (by linarith) hpos
    have hcast : (a : ℚ) < (b : ℚ) := by exact_mod_cast hab
    calc s + b * (e - s) / ((n : ℚ) - 1)
        = s + b * ((e - s) / ((n : ℚ) - 1)) := by ring
      _ < s + a * ((e - s) / ((n : ℚ) - 1)) := by
          have := mul_lt_mul_of_neg_right hcast hd
          linarith
      _ = s + a * (e - s) / ((n : ℚ) - 1) := by ring

/-- Witness for C6 at a concrete degenerate range and n = 2. -/
theorem C6_range_axis_resolution_witness :
    2 ≤ 2 ∧
      (readAxisInfo ⟨"2Theta", "deg", [.startPosition 0, .endPosition 0]⟩ 2
        = .ok ("2Theta", .vec (linspace 0 0 2)) ∧
      (linspace 0 0 2).length = 2 ∧
      (linspace 0 0 2).head? = some 0 ∧
      (linspace 0 0 2).getLast? = some 0 ∧
      ((0 : ℚ) < 0 → (linspace 0 0 2).Pairwise (· < ·)) ∧
      ((0 : ℚ) < 0 → (linspace 0 0 2).Pairwise (· > ·))) :=
  ⟨by decide, C6_range_axis_resolution "2Theta" "deg" 0 0 2 (by decide)⟩

/-! ## Scan classification (claim C1) -/

/-- The classification condition of io.py line 322: a scan is primary iff
the document measurement type is `Scan` or the scan status is `Completed`. -/
def primaryCondB (measType : String) (s : ScanElem) : Bool :=
  measType == "Scan" || s.status == "Completed"

/-- The indices (starting at `k`) of the scans classified primary. -/
def primaryIndices (measType : String) : List ScanElem → Nat → List Nat
  | [], _ => []
  | s :: rest, k =>
      if primaryCondB measType s then k :: primaryIndices measType rest (k + 1)
      else primaryIndices measType rest (k + 1)

/-- The indices (starting at `k`) of the scans classified incidental. -/
def incidentalIndices (measType : String) : List ScanElem → Nat → List Nat
  | [], _ => []
  | s :: rest, k =>
      if primaryCondB measType s then incidentalIndices measType rest (k + 1)
      else k :: incidentalIndices measType rest (k + 1)

theorem storeAxis_status (r : ScanRecord) (name : String) (a : Arr) :
    (storeAxis r name a).status = r.status := by
  unfold storeAxis
  split_ifs <;> rfl

theorem getScanData_status {s : ScanElem} {r : ScanRecord} (h : getScanData s = .ok r) :
    r.status = s.status := by
  unfold getScanData at h
  obtain ⟨dataList, hdl, h⟩ := exceptBind_ok h
  have main : ∀ (ps : List AxisPos) (r0 r1 : ScanRecord),
      (ps.foldlM (fun r pos =>
        readAxisInfo pos dataList.length >>= fun info =>
          Except.ok (storeAxis r info.1 info.2)) r0) = .ok r1 → r1.status = r0.status := by
    intro ps
    induction ps with
    | nil =>
        intro r0 r1 h
        cases h
        rfl
    | cons p rest ih =>
        intro r0 r1 h
        rw [List.foldlM_cons] at h
        obtain ⟨r2, hr2, h⟩ := exceptBind_ok h
        obtain ⟨info, hinfo, hr2'⟩ := exceptBind_ok hr2
        cases hr2'
        rw [ih _ _ h, storeAxis_status]
  exact main s.positions _ r h

theorem setVal_admin (d : Data) (k : Key) (v : Val) :
    (setVal d k v).scannb = d.scannb ∧ (setVal d k v).iscannb = d.iscannb ∧
      (setVal d k v).measType = d.measType := by
  cases k <;> exact ⟨rfl, rfl, rfl⟩

theorem append2arr_admin {d : Data} {scan : ScanRecord} {k : Key} {d' : Data}
    (h : append2arr d scan k = .ok d') :
    d'.scannb = d.scannb ∧ d'.iscannb = d.iscannb ∧ d'.measType = d.measType := by
  unfold append2arr at h
  split at h
  · cases h
  · split at h
    · cases h
      exact setVal_admin d k _
    · obtain ⟨c, hc, h⟩ := exceptBind_ok h
      cases h
      exact setVal_admin d k _
    · cases h
    · cases h

theorem foldl_append2arr_admin :
    ∀ (ks : List Key) (d d' : Data) (scan : ScanRecord),
      ks.foldlM (fun d key => append2arr d scan key) d = .ok d' →
      d'.scannb = d.scannb ∧ d'.iscannb = d.iscannb ∧ d'.measType = d.measType := by
  intro ks
  induction ks with
  | nil =>
      intro d d' scan h
      cases h
      exact ⟨rfl, rfl, rfl⟩
  | cons k rest ih =>
      intro d d' scan h
      rw [List.foldlM_cons] at h
      obtain ⟨d1, hd1, h⟩ := exceptBind_ok h
      obtain ⟨a1, b1, c1⟩ := append2arr_admin hd1
      obtain ⟨a2, b2, c2⟩ := ih _ _ _ h
      exact ⟨a2.trans a1, b2.trans b1, c2.trans c1⟩

theorem scanStep_buckets {d d' : Data} {k : Nat} {s : ScanElem} {l1 l2 : List Nat}
    (h : scanStep d k s = .ok d') (h1 : d.scannb = some l1) (h2 : d.iscannb = some l2) :
    d'.measType = d.measType ∧
    (primaryCondB d.measType s = true →
      d'.scannb = some (l1 ++ [k]) ∧ d'.iscannb = some l2) ∧
    (primaryCondB d.measType s = false →
      d'.scannb = some l1 ∧ d'.iscannb = some (l2 ++ [k])) := by
  unfold scanStep at h
  obtain ⟨scan, hscan, h⟩ := exceptBind_ok h
  have hst : scan.status = s.status := getScanData_status hscan
  split at h
  · rename_i hcond
    rw [h1] at h
    obtain ⟨a, b, c⟩ := foldl_append2arr_admin _ _ _ _ h
    have hpc : primaryCondB d.measType s = true := by
      simp only [primaryCondB, Bool.or_eq_true, beq_iff_eq]
      rw [← hst]
      exact hcond
    refine ⟨c, fun _ => ⟨a.trans rfl, b.trans h2⟩, fun hfalse => ?_⟩
    rw [hpc] at hfalse
    cases hfalse
  · rename_i hcond
    have hpc : primaryCondB d.measType s = false := by
      simp only [primaryCondB, Bool.or_eq_false_iff, beq_eq_false_iff_ne, ne_eq]
      rw [← hst]
      tauto
    rw [h2] at h
    split at h
    · cases h
    · split at h
      · cases h
      · split at h
        · cases h
        · cases h
          refine ⟨rfl, ?_, ?_⟩
          · intro htrue
            rw [hpc] at htrue
            cases htrue
          · intro _
            refine ⟨h1, ?_⟩
            simp_all

theorem scanLoop_buckets :
    ∀ (scans : List ScanElem) (k : Nat) (d d' : Data) (l1 l2 : List Nat),
      d.scannb = some l1 → d.iscannb = some l2 →
      scanLoop d k scans = .ok d' →
      d'.scannb = some (l1 ++ primaryIndices d.measType scans k) ∧
      d'.iscannb = some (l2 ++ incidentalIndices d.measType scans k) := by
  intro scans
  induction scans with
  | nil =>
      intro k d d' l1 l2 h1 h2 h
      cases h
      simp [primaryIndices, incidentalIndices, h1, h2]
  | cons s rest ih =>
      intro k d d' l1 l2 h1 h2 h
      unfold scanLoop at h
      obtain ⟨d1, hd1, h⟩ := exceptBind_ok h
      obtain ⟨hmt, hpos, hneg⟩ := scanStep_buckets hd1 h1 h2
      cases hpc : primaryCondB d.measType s with
      | true =>
          obtain ⟨ha, hb⟩ := hpos hpc
          obtain ⟨ha', hb'⟩ := ih (k + 1) d1 d' (l1 ++ [k]) l2 ha hb h
          rw [hmt] at ha' hb'
          constructor
          · rw [ha']
            simp [primaryIndices, hpc]
          · rw [hb']
            simp [incidentalIndices, hpc]
      | false =>
          obtain ⟨ha, hb⟩ := hneg hpc
          obtain ⟨ha', hb'⟩ := ih (k + 1) d1 d' l1 (l2 ++ [k]) ha hb h
          rw [hmt] at ha' hb'
          constructor
          · rw [ha']
            simp [primaryIndices, hpc]
          · rw [hb']
            simp [incidentalIndices, hpc]

/-- A step-axis document with one completed and one aborted scan. -/
def exMixedDoc : Doc :=
  { measType := "Omega-2Theta", stepAxisAttr := "Omega",
    scans := [{ status := "Completed", scanAxis := "2Theta", mode := "",
                intensities := [1, 2], intensitiesUnit := "counts per second",
                countingTimes := [], commonCountingTime := [1],
                positions := ⟨"2Theta", "deg", [.listPositions [10, 20]]⟩ ::
                             ⟨"Omega", "deg", [.commonPosition 5]⟩ ::
                             ⟨"Phi", "deg", [.commonPosition 0]⟩ :: stageAxes },
              { status := "Aborted", scanAxis := "2Theta", mode := "",
                intensities := [3, 4], intensitiesUnit := "counts per second",
                countingTimes := [], commonCountingTime := [1],
                positions := ⟨"2Theta", "deg", [.listPositions [10, 20]]⟩ ::
                             ⟨"Omega", "deg", [.commonPosition 6]⟩ ::
                             ⟨"Phi", "deg", [.commonPosition 0]⟩ :: stageAxes }],
    kType := "K-Alpha 1", kAlpha1 := 154 / 100, kAlpha2 := 154 / 100,
    kBeta := 139 / 100, kAlphaRatio := 1 / 2 }

theorem primaryIndices_ge (mt : String) :
    ∀ (scans : List ScanElem) (k i : Nat), i ∈ primaryIndices mt scans k → k ≤ i := by
  intro scans
  induction scans with
  | nil =>
      intro k i h
      simp [primaryIndices] at h
  | cons s rest ih =>
      intro k i h
      unfold primaryIndices at h
      split_ifs at h with hc
      · rcases List.mem_cons.1 h with h | h
        · omega
        · have := ih (k + 1) i h
          omega
      · have := ih (k + 1) i h
        omega

theorem incidentalIndices_ge (mt : String) :
    ∀ (scans : List ScanElem) (k i : Nat), i ∈ incidentalIndices mt scans k → k ≤ i := by
  intro scans
  induction scans with
  | nil =>
      intro k i h
      simp [incidentalIndices] at h
  | cons s rest ih =>
      intro k i h
      unfold incidentalIndices at h
      split_ifs at h with hc
      · have := ih (k + 1) i h
        omega
      · rcases List.mem_cons.1 h with h | h
        · omega
        · have := ih (k + 1) i h
          omega

theorem mem_primaryIndices_iff (mt : String) :
    ∀ (scans : List ScanElem) (k j : Nat) (s : ScanElem), scans[j]? = some s →
      ((k + j) ∈ primaryIndices mt scans k ↔ primaryCondB mt s = true) := by
  intro scans
  induction scans with
  | nil =>
      intro k j s h
      simp at h
  | cons s0 rest ih =>
      intro k j s h
      cases j with
      | zero =>
          have hs : s0 = s := by simpa using h
          subst hs
          unfold primaryIndices
          split_ifs with hc
          · simp [hc]
          · simp only [Nat.add_zero]
            constructor
            · intro hmem
              have := primaryIndices_ge mt rest (k + 1) k hmem
              omega
            · intro htrue
              exact absurd htrue hc
      | succ j' =>
          have h' : rest[j']? = some s := by simpa using h
          have hidx : k + (j' + 1) = (k + 1) + j' := by omega
          unfold primaryIndices
          split_ifs with hc
          · rw [List.mem_cons, hidx, ih (k + 1) j' s h']
            constructor
            · rintro (heq | hp)
              · exact absurd heq (by omega)
              · exact hp
            · exact fun hp => Or.inr hp
          · rw [hidx, ih (k + 1) j' s h']

theorem mem_incidentalIndices_iff (mt : String) :
    ∀ (scans : List ScanElem) (k j : Nat) (s : ScanElem), scans[j]? = some s →
      ((k + j) ∈ incidentalIndices mt scans k ↔ primaryCondB mt s = false) := by
  intro scans
  induction scans with
  | nil =>
      intro k j s h
      simp at h
  | cons s0 rest ih =>
      intro k j s h
      cases j with
      | zero =>
          have hs : s0 = s := by simpa using h
          subst hs
          unfold incidentalIndices
          split_ifs with hc
          · simp only [hc, Nat.add_zero]
            constructor
            · intro hmem
              have := incidentalIndices_ge mt rest (k + 1) k hmem
              omega
            · intro hfalse
              cases hfalse
          · simp [hc, List.mem_cons]
      | succ j' =>
          have h' : rest[j']? = some s := by simpa using h
          have hidx : k + (j' + 1) = (k + 1) + j' := by omega
          unfold incidentalIndices
          split_ifs with hc
          · rw [hidx, ih (k + 1) j' s h']
          · rw [List.mem_cons, hidx, ih (k + 1) j' s h']
            constructor
            · rintro (heq | hp)
              · exact absurd heq (by omega)
              · exact hp
            · exact fun hp => Or.inr hp

/-- C1: a scan of a decodable document is appended to the primary scan
list `scannb` (with its arrays stacked into the main fields) if and only
if the document measurement type is `Scan` or the scan status is
`Completed`; otherwise, and only then, its index lands in the incidental
list `iscannb`. -/
theorem C1_scan_classification (doc : Doc)
    (h : isOkE (scanLoop (initData doc) 0 doc.scans) = true) :
    ∀ (i : Nat) (s : ScanElem), doc.scans[i]? = some s →
      (okData (scanLoop (initData doc) 0 doc.scans)).map
          (fun d => (d.scannb.getD []).contains i) = some (primaryCondB doc.measType s) ∧
      (okData (scanLoop (initData doc) 0 doc.scans)).map
          (fun d => (d.iscannb.getD []).contains i) = some (!primaryCondB doc.measType s) := by
  cases hr : scanLoop (initData doc) 0 doc.scans with
  | error e =>
      rw [hr] at h
      simp [isOkE, okData] at h
  | ok d =>
      intro i s hs
      obtain ⟨ha, hb⟩ := scanLoop_buckets doc.scans 0 (initData doc) d [] [] rfl rfl hr
      have hmt : (initData doc).measType = doc.measType := rfl
      rw [hmt, List.nil_append] at ha hb
      have hp := mem_primaryIndices_iff doc.measType doc.scans 0 i s hs
      have hi := mem_incidentalIndices_iff doc.measType doc.scans 0 i s hs
      rw [Nat.zero_add] at hp hi
      constructor
      · simp only [okData, Option.map]
        rw [ha]
        simp only [Option.getD_some]
        cases hpc : primaryCondB doc.measType s with
        | true =>
            have hmem : i ∈ primaryIndices doc.measType doc.scans 0 := hp.2 hpc
            simp [List.contains, List.elem_iff, hmem]
        | false =>
            have hmem : i ∉ primaryIndices doc.measType doc.scans 0 := by
              intro m
              have := hp.1 m
              rw [this] at hpc
              cases hpc
            simp [List.contains, List.elem_iff, hmem]
      · simp only [okData, Option.map]
        rw [hb]
        simp only [Option.getD_some]
        cases hpc : primaryCondB doc.measType s with
        | true =>
            have hmem : i ∉ incidentalIndices doc.measType doc.scans 0 := by
              intro m
              have := hi.1 m
              rw [this] at hpc
              cases hpc
            simp [List.contains, List.elem_iff, hmem]
        | false =>
            have hmem : i ∈ incidentalIndices doc.measType doc.scans 0 := hi.2 hpc
            simp [List.contains, List.elem_iff, hmem]

/-- Witness for C1 at a two-scan document with one completed and one
aborted scan. -/
theorem C1_scan_classification_witness :
    isOkE (scanLoop (initData exMixedDoc) 0 exMixedDoc.scans) = true ∧
      (∀ (i : Nat) (s : ScanElem), exMixedDoc.scans[i]? = some s →
        (okData (scanLoop (initData exMixedDoc) 0 exMixedDoc.scans)).map
            (fun d => (d.scannb.getD []).contains i)
          = some (primaryCondB exMixedDoc.measType s) ∧
        (okData (scanLoop (initData exMixedDoc) 0 exMixedDoc.scans)).map
            (fun d => (d.iscannb.getD []).contains i)
          = some (!primaryCondB exMixedDoc.measType s)) :=
  ⟨by decide, C1_scan_classification exMixedDoc (by decide)⟩

/-! ## Collapse routing (claim C4) -/

theorem getVal_setVal_self (d : Data) (k : Key) (v : Val) : getVal (setVal d k v) k = some v := by
  cases k <;> rfl

theorem getVal_setVal_ne (d : Data) (k : Key) (v : Val) (k' : Key) (hne : k' ≠ k) :
    getVal (setVal d k v) k' = getVal d k' := by
  cases k <;> cases k' <;> first | rfl | exact absurd rfl hne

theorem setVal_measType (d : Data) (k : Key) (v : Val) : (setVal d k v).measType = d.measType := by
  cases k <;> rfl

theorem getArrForKey_measType {d d' : Data} {k : Key} (h : getArrForKey d k = .ok d') :
    d'.measType = d.measType := by
  unfold getArrForKey at h
  split at h
  · cases h
    rfl
  · cases h
  · split at h
    · split at h
      · cases h
        exact setVal_measType d k _
      · cases h
    · split at h
      · split at h
        · cases h
          exact setVal_measType d k _
        · cases h
          rfl
      · split at h
        · cases h
          exact setVal_measType d k _
        · cases h
          rfl
      · cases h
        rfl

theorem getArrForKey_other {d d' : Data} {k : Key} (h : getArrForKey d k = .ok d')
    (k' : Key) (hne : k' ≠ k) : getVal d' k' = getVal d k' := by
  unfold getArrForKey at h
  split at h
  · cases h
    rfl
  · cases h
  · split at h
    · split at h
      · cases h
        exact getVal_setVal_ne d k _ k' hne
      · cases h
    · split at h
      · split at h
        · cases h
          exact getVal_setVal_ne d k _ k' hne
        · cases h
          rfl
      · split at h
        · cases h
          exact getVal_setVal_ne d k _ k' hne
        · cases h
          rfl
      · cases h
        rfl

theorem getArrForKey_vec_allEq {d : Data} {k : Key} {x y : ℚ} {rest : List ℚ}
    (hv : getVal d k = some (.arr (.vec (x :: y :: rest))))
    (hall : (x :: y :: rest).all (· = x) = true) :
    getArrForKey d k = .ok (setVal d k (.arr (.scalar x))) := by
  have hne : ¬((Arr.vec (x :: y :: rest)).size = 1) := by
    simp [Arr.size]
  have hcond : 1 < (x :: y :: rest).length ∧
      ((x :: y :: rest).all (· = (x :: y :: rest).headD 0)) = true := by
    constructor
    · simp
    · simpa using hall
  unfold getArrForKey
  rw [hv]
  dsimp only
  rw [if_neg hne, if_pos hcond]
  simp

theorem foldl_getArr_other :
    ∀ (ks : List Key) (d d' : Data),
      ks.foldlM getArrForKey d = .ok d' →
      (∀ k' : Key, k' ∉ ks → getVal d' k' = getVal d k') ∧ d'.measType = d.measType := by
  intro ks
  induction ks with
  | nil =>
      intro d d' h
      cases h
      exact ⟨fun _ _ => rfl, rfl⟩
  | cons k rest ih =>
      intro d d' h
      rw [List.foldlM_cons] at h
      obtain ⟨d1, hd1, h⟩ := exceptBind_ok h
      obtain ⟨hrest, hmt⟩ := ih d1 d' h
      refine ⟨fun k' hk' => ?_, hmt.trans (getArrForKey_measType hd1)⟩
      have hk1 : k' ∉ rest := fun m => hk' (List.mem_cons_of_mem _ m)
      have hk2 : k' ≠ k := fun e => hk' (e ▸ List.mem_cons_self k rest)
      rw [hrest k' hk1, getArrForKey_other hd1 k' hk2]

theorem collapse_through (pre post : List Key) (k : Key)
    (hpre : k ∉ pre) (hpost : k ∉ post) {d d' : Data} {x y : ℚ} {rest : List ℚ}
    (h : (pre ++ k :: post).foldlM getArrForKey d = .ok d')
    (hv : getVal d k = some (.arr (.vec (x :: y :: rest))))
    (hall : (x :: y :: rest).all (· = x) = true) :
    getVal d' k = some (.arr (.scalar x)) := by
  rw [List.foldlM_append] at h
  obtain ⟨d1, hd1, h⟩ := exceptBind_ok h
  rw [List.foldlM_cons] at h
  obtain ⟨d2, hd2, h⟩ := exceptBind_ok h
  have hv1 : getVal d1 k = some (.arr (.vec (x :: y :: rest))) := by
    rw [(foldl_getArr_other pre d d1 hd1).1 k hpre, hv]
  rw [getArrForKey_vec_allEq hv1 hall] at hd2
  cases hd2
  rw [(foldl_getArr_other post _ d' h).1 k hpost, getVal_setVal_self]

theorem collapsePhase_step2_preserve {d1 d2 : Data}
    (h2 : (if d1.measType ≠ "Area measurement" then
            getArrForKey d1 .twoTheta >>= fun dA => getArrForKey dA .omega
          else pure d1) = .ok d2)
    (k : Key) (hk2 : k ≠ .twoTheta) (hko : k ≠ .omega) :
    getVal d2 k = getVal d1 k ∧ d2.measType = d1.measType := by
  split_ifs at h2
  · obtain ⟨dA, hA, h2⟩ := exceptBind_ok h2
    constructor
    · rw [getArrForKey_other h2 k hko, getArrForKey_other hA k hk2]
    · rw [getArrForKey_measType h2, getArrForKey_measType hA]
  · cases h2
    exact ⟨rfl, rfl⟩

theorem collapsePhase_step3_preserve {nbScans : Nat} {d2 dfin : Data}
    (h3 : (if 1 < nbScans then
            [Key.phi, Key.psi, Key.posx, Key.posy, Key.posz].foldlM getArrForKey d2
          else pure d2) = .ok dfin)
    (k : Key) (hk : k ∉ [Key.phi, Key.psi, Key.posx, Key.posy, Key.posz]) :
    getVal dfin k = getVal d2 k := by
  split_ifs at h3
  · exact (foldl_getArr_other _ _ _ h3).1 k hk
  · cases h3
    rfl

/-- C4 (amended): the collapse of an all-equal axis array to a scalar
happens exactly for the fields routed through
`_get_array_for_single_value`: `time` always, `2Theta` and `Omega` only
when the measurement type is not `Area measurement`, and the stage axes
`Phi`/`Psi`/`X`/`Y`/`Z` only when the document has more than one scan —
and only for 1-D arrays with more than one element (2-D stacks collapse
to their first row and size-1 arrays are broadcast instead).  For every
routed field holding a 1-D all-equal array of length ≥ 2, the collapse
phase leaves a 0-d scalar equal to the common value. -/
theorem C4_collapse_scalar_for_routed_fields (nbScans : Nat) (d : Data) (k : Key)
    (hroute : k = Key.time ∨
      ((k = Key.twoTheta ∨ k = Key.omega) ∧ d.measType ≠ "Area measurement") ∨
      ((k = Key.phi ∨ k = Key.psi ∨ k = Key.posx ∨ k = Key.posy ∨ k = Key.posz) ∧ 1 < nbScans))
    (x y : ℚ) (rest : List ℚ)
    (hv : getVal d k = some (.arr (.vec (x :: y :: rest))))
    (hall : (x :: y :: rest).all (· = x) = true)
    (hok : isOkE (collapsePhase nbScans d) = true) :
    (okData (collapsePhase nbScans d)).map (fun dres => getVal dres k)
      = some (some (.arr (.scalar x))) := by
  cases hc : collapsePhase nbScans d with
  | error e =>
      rw [hc] at hok
      simp [isOkE, okData] at hok
  | ok dfin =>
      simp only [okData, Option.map]
      unfold collapsePhase at hc
      obtain ⟨d1, h1, hb1⟩ := exceptBind_ok hc
      obtain ⟨d2, h2, h3⟩ := exceptBind_ok hb1
      rcases hroute with hk | ⟨hk, hA⟩ | ⟨hk, hnb⟩
      · subst hk
        rw [getArrForKey_vec_allEq hv hall] at h1
        cases h1
        have hs2 := collapsePhase_step2_preserve h2 .time (by decide) (by decide)
        have hs3 := collapsePhase_step3_preserve h3 .time (by decide)
        rw [hs3, hs2.1, getVal_setVal_self]
      · have hpre1 : getVal d1 k = getVal d k := by
          rcases hk with hk | hk <;> subst hk <;>
            exact getArrForKey_other h1 _ (by decide)
        have hmt1 : d1.measType = d.measType := getArrForKey_measType h1
        rw [if_pos (by rw [hmt1]; exact hA)] at h2
        obtain ⟨dA, hA2, h2⟩ := exceptBind_ok h2
        have hs3 := collapsePhase_step3_preserve h3 k
          (by rcases hk with hk | hk <;> subst hk <;> decide)
        rcases hk with hk | hk
        · subst hk
          rw [getArrForKey_vec_allEq (by rw [hpre1, hv]) hall] at hA2
          cases hA2
          rw [hs3, getArrForKey_other h2 .twoTheta (by decide), getVal_setVal_self]
        · subst hk
          have hpreA : getVal dA .omega = getVal d .omega := by
            rw [getArrForKey_other hA2 .omega (by decide), hpre1]
          rw [getArrForKey_vec_allEq (by rw [hpreA, hv]) hall] at h2
          cases h2
          rw [hs3, getVal_setVal_self]
      · have hpre1 : getVal d1 k = getVal d k := by
          rcases hk with hk | hk | hk | hk | hk <;> subst hk <;>
            exact getArrForKey_other h1 _ (by decide)
        have hpre2 : getVal d2 k = getVal d1 k :=
          (collapsePhase_step2_preserve h2 k
            (by rcases hk with hk | hk | hk | hk | hk <;> subst hk <;> decide)
            (by rcases hk with hk | hk | hk | hk | hk <;> subst hk <;> decide)).1
        rw [if_pos hnb] at h3
        have hv2 : getVal d2 k = some (.arr (.vec (x :: y :: rest))) := by
          rw [hpre2, hpre1, hv]
        rcases hk with hk | hk | hk | hk | hk <;> subst hk
        · have := collapse_through [] [Key.psi, Key.posx, Key.posy, Key.posz] .phi
            (by decide) (by decide) h3 hv2 hall
          rw [this]
        · have := collapse_through [Key.phi] [Key.posx, Key.posy, Key.posz] .psi
            (by decide) (by decide) h3 hv2 hall
          rw [this]
        · have := collapse_through [Key.phi, Key.psi] [Key.posy, Key.posz] .posx
            (by decide) (by decide) h3 hv2 hall
          rw [this]
        · have := collapse_through [Key.phi, Key.psi, Key.posx] [Key.posz] .posy
            (by decide) (by decide) h3 hv2 hall
          rw [this]
        · have := collapse_through [Key.phi, Key.psi, Key.posx, Key.posy] [] .posz
            (by decide) (by decide) h3 hv2 hall
          rw [this]

/-- Witness for C4 (amended) at a concrete dictionary state. -/
theorem C4_collapse_scalar_for_routed_fields_witness :
    ((Key.time : Key) = Key.time ∨
      ((Key.time = Key.twoTheta ∨ Key.time = Key.omega) ∧
        ({ measType := "Scan", time := some (.arr (.vec [2, 2])) } : Data).measType
          ≠ "Area measurement") ∨
      ((Key.time = Key.phi ∨ Key.time = Key.psi ∨ Key.time = Key.posx ∨
        Key.time = Key.posy ∨ Key.time = Key.posz) ∧ 1 < 1)) ∧
    getVal { measType := "Scan", time := some (.arr (.vec [2, 2])) } Key.time
      = some (.arr (.vec [2, 2])) ∧
    (((2 : ℚ) :: (2 : ℚ) :: ([] : List ℚ)).all (· = (2 : ℚ)) = true) ∧
    isOkE (collapsePhase 1 { measType := "Scan", time := some (.arr (.vec [2, 2])) }) = true ∧
    (okData (collapsePhase 1 { measType := "Scan", time := some (.arr (.vec [2, 2])) })).map
        (fun dres => getVal dres Key.time) = some (some (.arr (.scalar 2))) :=
  ⟨Or.inl rfl, by decide, by decide, by decide,
    C4_collapse_scalar_for_routed_fields 1 { measType := "Scan", time := some (.arr (.vec [2, 2])) }
      Key.time (Or.inl rfl) 2 2 [] (by decide) (by decide) (by decide)⟩

/-! ## Area-measurement broadcast (claim C7) -/

theorem setRow_before (v : ℚ) :
    ∀ (m : Nat) (row : List ℚ), m ≤ row.length →
      (List.range m).foldl (fun r k => r.set k v) row
        = List.replicate m v ++ row.drop m := by
  intro m
  induction m with
  | zero =>
      intro row _
      simp
  | succ m ih =>
      intro row hm
      rw [List.range_succ, List.foldl_append, ih row (by omega)]
      simp only [List.foldl_cons, List.foldl_nil]
      have hlt : m < row.length := by omega
      rw [List.drop_eq_get_cons hlt, List.set_append,
        if_neg (by simp), List.length_replicate, Nat.sub_self, List.set_cons_zero,
        List.replicate_succ' m v]
      simp

theorem zipWith_id_left :
    ∀ (tmp : List (List ℚ)) (col : List ℚ), tmp.length = col.length →
      List.zipWith (fun row (_ : ℚ) => row) tmp col = tmp := by
  intro tmp
  induction tmp with
  | nil =>
      intro col _
      simp
  | cons r rs ih =>
      intro col h
      cases col with
      | nil => simp at h
      | cons v vs => simp [ih vs (by simpa using h)]

theorem zipWith_zipWith_same (f g : List ℚ → ℚ → List ℚ) :
    ∀ (tmp : List (List ℚ)) (col : List ℚ),
      List.zipWith f (List.zipWith g tmp col) col
        = List.zipWith (fun r v => f (g r v) v) tmp col := by
  intro tmp
  induction tmp with
  | nil =>
      intro col
      simp
  | cons r rs ih =>
      intro col
      cases col with
      | nil => simp
      | cons v vs => simp [ih vs]

theorem writeColumn_length (tmp : List (List ℚ)) (k : Nat) (col : List ℚ) :
    (writeColumn tmp k col).length = min tmp.length col.length := by
  simp [writeColumn]

theorem foldl_writeColumn_zipWith (col : List ℚ) :
    ∀ (ks : List Nat) (tmp : List (List ℚ)), tmp.length = col.length →
      ks.foldl (fun t k => writeColumn t k col) tmp
        = List.zipWith (fun row v => ks.foldl (fun r k => r.set k v) row) tmp col := by
  intro ks
  induction ks with
  | nil =>
      intro tmp hlen
      simp only [List.foldl_nil]
      exact (zipWith_id_left tmp col hlen).symm
  | cons k ks ih =>
      intro tmp hlen
      simp only [List.foldl_cons]
      rw [ih (writeColumn tmp k col) (by rw [writeColumn_length, hlen]; omega)]
      unfold writeColumn
      rw [zipWith_zipWith_same]

theorem zipWith_foldl_replicate (n : Nat) :
    ∀ (tmp : List (List ℚ)) (col : List ℚ), (∀ r ∈ tmp, r.length = n) →
      List.zipWith (fun row v => (List.range n).foldl (fun r k => r.set k v) row) tmp col
        = (col.take tmp.length).map (fun v => List.replicate n v) := by
  intro tmp
  induction tmp with
  | nil =>
      intro col _
      simp
  | cons r rs ih =>
      intro col hrect
      cases col with
      | nil => simp
      | cons v vs =>
          have hr : r.length = n := hrect r (by simp)
          have hstep : (List.range n).foldl (fun r k => r.set k v) r = List.replicate n v := by
            rw [setRow_before v n r (by omega)]
            rw [← hr, List.drop_length]
            simp
          simp only [List.zipWith_cons_cons, hstep, List.length_cons,
            List.take_succ_cons, List.map_cons]
          rw [ih vs (fun r2 h2 => hrect r2 (by simp [h2]))]

theorem fillColumns_replicate (init : List (List ℚ)) (col : List ℚ) (n : Nat)
    (hlen : init.length = col.length) (hrect : ∀ r ∈ init, r.length = n) :
    fillColumns init n col = col.map (fun v => List.replicate n v) := by
  unfold fillColumns
  rw [foldl_writeColumn_zipWith col (List.range n) init hlen,
    zipWith_foldl_replicate n init col hrect, hlen, List.take_length]

theorem transposeL_singleCol (O : List (List ℚ)) (hO1 : ∀ r ∈ O, r.length = 1)
    (hne : O ≠ []) : transposeL O = [O.map (fun r => r.getD 0 0)] := by
  unfold transposeL
  have h1 : (O.headD []).length = 1 := by
    cases O with
    | nil => exact absurd rfl hne
    | cons r rs => exact hO1 r (by simp)
  rw [h1]
  simp [List.range_succ]

/-- C7: for an area-measurement dataset with scan axis `2Theta` and step
axis `Omega`, when the stacked `2Theta` grid has `n > 1` columns and the
stacked `Omega` grid one column per row (same row count), the returned
`Omega` is reshaped to the `2Theta` shape, each row holding that row's
single original value replicated across all `n` columns. -/
theorem C7_area_omega_broadcast (d : Data) (M O : List (List ℚ)) (n : Nat)
    (hm : d.measType = "Area measurement")
    (hsa : d.scanAxis = some "2Theta") (hst : d.stepAxis = some "Omega")
    (h2 : d.twoTheta = some (.arr (.mat M)))
    (hO : d.omega = some (.arr (.mat O)))
    (hMrect : ∀ r ∈ M, r.length = n)
    (hO1 : ∀ r ∈ O, r.length = 1)
    (hrows : O.length = M.length)
    (hM0 : M ≠ [])
    (hn : 1 < n) :
    areaPhase d
      = .ok { d with
              omega := some (.arr (.mat (O.map (fun r => List.replicate n (r.getD 0 0))))) } := by
  have hMn : (M.headD []).length = n := by
    cases M with
    | nil => exact absurd rfl hM0
    | cons r rs => exact hMrect r (by simp)
  have hOne : O ≠ [] := by
    intro h
    rw [h] at hrows
    cases M with
    | nil => exact absurd rfl hM0
    | cons r rs => simp at hrows
  have hO1len : (O.headD []).length = 1 := by
    cases O with
    | nil => exact absurd rfl hOne
    | cons r rs => exact hO1 r (by simp)
  unfold areaPhase
  rw [hm, if_pos rfl, h2, hO]
  unfold cols2d
  simp only [Bind.bind, Except.bind]
  rw [hMn, hO1len]
  rw [if_pos ⟨by omega, hsa, hst⟩]
  rw [transposeL_singleCol O hO1 hOne]
  unfold broadcastSourceRow
  have hcollen : (O.map (fun r => r.getD 0 0)).length = M.length := by
    rw [List.length_map, hrows]
  dsimp only
  rw [if_pos hcollen]
  dsimp only
  have hinitlen : (M.map (·.map (fun _ => (0 : ℚ)))).length
      = (O.map (fun r => r.getD 0 0)).length := by
    rw [List.length_map, List.length_map, hrows]
  have hinitrect : ∀ r ∈ M.map (·.map (fun _ => (0 : ℚ))), r.length = n := by
    intro r hr
    obtain ⟨r0, hr0, hrr⟩ := List.mem_map.1 hr
    rw [← hrr, List.length_map]
    exact hMrect r0 hr0
  rw [fillColumns_replicate _ _ n hinitlen hinitrect, List.map_map]
  rfl

/-- A concrete pre-fix-up area-measurement dictionary state: a 2x2
`2Theta` grid and a 2x1 `Omega` column. -/
def exC7Data : Data :=
  { measType := "Area measurement", scanAxis := some "2Theta",
    stepAxis := some "Omega",
    twoTheta := some (.arr (.mat [[10, 20], [30, 40]])),
    omega := some (.arr (.mat [[5], [6]])) }

/-- Witness for C7 at a concrete 2x2 / 2x1 grid pair. -/
theorem C7_area_omega_broadcast_witness :
    exC7Data.measType = "Area measurement" ∧
    areaPhase exC7Data
      = .ok { exC7Data with omega := some (.arr (.mat [[5, 5], [6, 6]])) } :=
  ⟨rfl,
    C7_area_omega_broadcast exC7Data [[10, 20], [30, 40]] [[5], [6]] 2
      rfl rfl rfl rfl rfl
      (by decide) (by decide) (by decide) (by decide) (by decide)⟩

/-! ## Coordinate transforms (utils.py, claim C9) -/

/-- The hkl dictionary consumed by the coordinate-transform module. -/
structure HKLDict where
  h : ℝ
  k : ℝ
  l : ℝ

/-- The caller's two ndarray arguments, modelled as a store so that
in-place mutation is observable. -/
structure QStore where
  x : List ℝ
  y : List ℝ

/-- `q2hkl_map(x, y, lattice_params, hkl)` from utils.py: `x /= sqrt((h/a)**2
+ (k/b)**2)` and `y *= c` are in-place numpy operations, so the returned
pair and the post-call store hold the same transformed arrays (the
returned arrays alias the caller's arguments). -/
noncomputable def q2hkl_map (st : QStore) (lattice_params : ℝ × ℝ × ℝ)
    (hkl : Option HKLDict) : (List ℝ × List ℝ) × QStore :=
  let hkl := hkl.getD ⟨0, 0, 1⟩
  let a := lattice_params.1
  let b := lattice_params.2.1
  let c := lattice_params.2.2
  let x := st.x.map (fun v => v / Real.sqrt ((hkl.h / a) ^ 2 + (hkl.k / b) ^ 2))
  let y := st.y.map (fun v => v * c)
  ((x, y), ⟨x, y⟩)

/-- C9 counterexample: the claim says the caller's argument arrays are
left unchanged.  At x = [5], y = [1], lattice (1, 1, 2) and hkl (3, 4, 0)
the store after the call differs from the store before it: x has been
divided in place by sqrt(3^2 + 4^2) = 5. -/
theorem C9_counterexample_q2hkl_map_mutates :
    (q2hkl_map ⟨[5], [1]⟩ (1, 1, 2) (some ⟨3, 4, 0⟩)).2 ≠ (⟨[5], [1]⟩ : QStore) := by
  intro h
  have hx := congrArg QStore.x h
  have hs : Real.sqrt (((3 : ℝ) / 1) ^ 2 + ((4 : ℝ) / 1) ^ 2) = 5 := by
    rw [show ((3 : ℝ) / 1) ^ 2 + ((4 : ℝ) / 1) ^ 2 = 5 ^ 2 by norm_num]
    exact Real.sqrt_sq (by norm_num)
  simp only [q2hkl_map, Option.getD_some, List.map_cons, List.map_nil] at hx
  rw [hs] at hx
  have h5 : (5 : ℝ) / 5 = 5 := by
    injection hx with h1 _
  norm_num at h5

/-- C9 (amended): `q2hkl_map` returns
`(x / sqrt((h/a)^2 + (k/b)^2), y*c)` as the claim states, but it computes
them in place: after the call the caller's arrays hold the transformed
values (the returned arrays and the stored arrays are identical), instead
of being left unchanged. -/
theorem C9_q2hkl_map_formula_and_writeback (st : QStore) (a b c : ℝ)
    (hkl : Option HKLDict) :
    (q2hkl_map st (a, b, c) hkl).1.1
      = st.x.map (fun v =>
          v / Real.sqrt (((hkl.getD ⟨0, 0, 1⟩).h / a) ^ 2
            + ((hkl.getD ⟨0, 0, 1⟩).k / b) ^ 2)) ∧
    (q2hkl_map st (a, b, c) hkl).1.2 = st.y.map (fun v => v * c) ∧
    (q2hkl_map st (a, b, c) hkl).2.x = (q2hkl_map st (a, b, c) hkl).1.1 ∧
    (q2hkl_map st (a, b, c) hkl).2.y = (q2hkl_map st (a, b, c) hkl).1.2 :=
  ⟨rfl, rfl, rfl, rfl⟩

/-! ## Repeated-scan averaging (claim C3) -/

/-- One repeated-scan element: cps intensity row `I`, common counting time
`t`, constant positions for every axis. -/
def mkRScan (t : ℚ) (I : List ℚ) : ScanElem :=
  { status := "Completed", scanAxis := "2Theta", mode := "",
    intensities := I, intensitiesUnit := "counts per second",
    countingTimes := [], commonCountingTime := [t],
    positions := [⟨"2Theta", "deg", [.commonPosition 10]⟩,
                  ⟨"Omega", "deg", [.commonPosition 5]⟩,
                  ⟨"Phi", "deg", [.commonPosition 0]⟩,
                  ⟨"Psi", "deg", [.commonPosition 0]⟩,
                  ⟨"X", "mm", [.commonPosition 0]⟩,
                  ⟨"Y", "mm", [.commonPosition 0]⟩,
                  ⟨"Z", "mm", [.commonPosition 0]⟩] }

/-- The scan record extracted from `mkRScan t I`. -/
def mkRRec (t : ℚ) (I : List ℚ) : ScanRecord :=
  { status := "Completed", scanAxis := "2Theta",
    data := .vec I, time := .vec [t],
    twoTheta := some (.scalar 10), omega := some (.scalar 5),
    phi := some (.scalar 0), psi := some (.scalar 0),
    posx := some (.scalar 0), posy := some (.scalar 0), posz := some (.scalar 0) }

/-- A `Repeated scan` document over the cps rows `Is`. -/
def mkRepeatedDoc (t : ℚ) (Is : List (List ℚ)) : Doc :=
  { measType := "Repeated scan", stepAxisAttr := "",
    scans := Is.map (mkRScan t),
    kType := "K-Alpha 1", kAlpha1 := 154 / 100, kAlpha2 := 154 / 100,
    kBeta := 139 / 100, kAlphaRatio := 1 / 2 }

/-- Row 0 accumulated over all stacked rows, as the in-place loop does. -/
def sumRows : List (List ℚ) → List ℚ
  | [] => []
  | r :: rs => rs.foldl (fun acc row => List.zipWith (· + ·) acc row) r

/-- The element-wise mean: the accumulated row divided by the scan count
(`data['data'][0] / len(data['scannb'])`). -/
def meanRows (Is : List (List ℚ)) : List ℚ :=
  (sumRows Is).map (· * (1 / (Is.length : ℚ)))

theorem getScanData_mkRScan (t : ℚ) (I : List ℚ) :
    getScanData (mkRScan t I) = .ok (mkRRec t I) := by
  simp [getScanData, mkRScan, mkRRec, timeBasis, readAxisInfo, readAxisChild, storeAxis,
    List.foldlM, Bind.bind, Except.bind, pure, Except.pure]

theorem vstack_rect {a b : Arr} {n : Nat}
    (ha : ∀ r ∈ a.atleast2d, r.length = n) (hb : ∀ r ∈ b.atleast2d, r.length = n) :
    vstack a b = .ok (.mat (a.atleast2d ++ b.atleast2d)) := by
  have hall : ∀ x ∈ (a.atleast2d ++ b.atleast2d).map List.length, x = n := by
    intro x hx
    obtain ⟨r, hr, hxx⟩ := List.mem_map.1 hx
    rcases List.mem_append.1 hr with hr | hr
    · rw [← hxx]
      exact ha r hr
    · rw [← hxx]
      exact hb r hr
  unfold vstack
  cases hmap : (a.atleast2d ++ b.atleast2d).map List.length with
  | nil => rfl
  | cons c cs =>
      have hc : c = n := hall c (by rw [hmap]; exact List.mem_cons_self c cs)
      have hcs : cs.all (· = c) = true := by
        rw [List.all_eq_true]
        intro x hx
        have hx2 : x = n := hall x (by rw [hmap]; exact List.mem_cons_of_mem c hx)
        simp [hx2, hc]
      dsimp only
      rw [if_pos hcs]

/-- The loop state after the first scan of a repeated-scan document:
all primary fields seeded with the first scan's arrays. -/
def rVecState (t : ℚ) (Is : List (List ℚ)) (j : Nat) (I1 : List ℚ) : Data :=
  { initData (mkRepeatedDoc t Is) with
    scannb := some [j],
    data := some (.arr (.vec I1)), time := some (.arr (.vec [t])),
    twoTheta := some (.arr (.scalar 10)), omega := some (.arr (.scalar 5)),
    phi := some (.arr (.scalar 0)), psi := some (.arr (.scalar 0)),
    posx := some (.arr (.scalar 0)), posy := some (.arr (.scalar 0)),
    posz := some (.arr (.scalar 0)) }

/-- The loop state after at least two scans: every primary field is a
vertically stacked 2-D array. -/
def rMatState (t : ℚ) (Is : List (List ℚ)) (ks : List Nat) (rows : List (List ℚ)) : Data :=
  { initData (mkRepeatedDoc t Is) with
    scannb := some ks,
    data := some (.arr (.mat rows)),
    time := some (.arr (.mat (List.replicate rows.length [t]))),
    twoTheta := some (.arr (.mat (List.replicate rows.length [10]))),
    omega := some (.arr (.mat (List.replicate rows.length [5]))),
    phi := some (.arr (.mat (List.replicate rows.length [0]))),
    psi := some (.arr (.mat (List.replicate rows.length [0]))),
    posx := some (.arr (.mat (List.replicate rows.length [0]))),
    posy := some (.arr (.mat (List.replicate rows.length [0]))),
    posz := some (.arr (.mat (List.replicate rows.length [0]))) }

theorem scanStep_rSeed (t : ℚ) (Is : List (List ℚ)) (j : Nat) (I1 : List ℚ) :
    scanStep (initData (mkRepeatedDoc t Is)) j (mkRScan t I1)
      = .ok (rVecState t Is j I1) := by
  unfold scanStep
  rw [getScanData_mkRScan]
  simp [initData, mkRepeatedDoc, mkRRec, rVecState, append2arr, getVal, setVal,
    ScanRecord.getKey, List.foldlM, Bind.bind, Except.bind, pure, Except.pure]

theorem scanStep_rVec (t : ℚ) (Is : List (List ℚ)) (j k : Nat) (I1 I2 : List ℚ)
    (n : Nat) (h1 : I1.length = n) (h2 : I2.length = n) :
    scanStep (rVecState t Is j I1) k (mkRScan t I2)
      = .ok (rMatState t Is [j, k] [I1, I2]) := by
  have hd : vstack (.vec I1) (.vec I2) = .ok (.mat [I1, I2]) :=
    vstack_rect (n := n) (by simp [Arr.atleast2d, h1]) (by simp [Arr.atleast2d, h2])
  have ht : vstack (.vec [t]) (.vec [t]) = .ok (.mat [[t], [t]]) :=
    vstack_rect (n := 1) (by simp [Arr.atleast2d]) (by simp [Arr.atleast2d])
  have hs : ∀ c : ℚ, vstack (.scalar c) (.scalar c) = .ok (.mat [[c], [c]]) := fun c =>
    vstack_rect (n := 1) (by simp [Arr.atleast2d]) (by simp [Arr.atleast2d])
  unfold scanStep
  rw [getScanData_mkRScan]
  simp [rVecState, rMatState, initData, mkRepeatedDoc, mkRRec, append2arr, getVal, setVal,
    ScanRecord.getKey, List.foldlM, Bind.bind, Except.bind, pure, Except.pure,
    hd, ht, hs, List.replicate]

theorem scanStep_rMat (t : ℚ) (Is : List (List ℚ)) (ks : List Nat) (k : Nat)
    (rows : List (List ℚ)) (I : List ℚ) (n : Nat)
    (hrows : ∀ r ∈ rows, r.length = n) (hI : I.length = n) :
    scanStep (rMatState t Is ks rows) k (mkRScan t I)
      = .ok (rMatState t Is (ks ++ [k]) (rows ++ [I])) := by
  have hd : vstack (.mat rows) (.vec I) = .ok (.mat (rows ++ [I])) :=
    vstack_rect (n := n) (by simpa [Arr.atleast2d] using hrows) (by simp [Arr.atleast2d, hI])
  have ht : vstack (.mat (List.replicate rows.length [t])) (.vec [t])
      = .ok (.mat (List.replicate rows.length [t] ++ [[t]])) :=
    vstack_rect (n := 1)
      (by
        intro r hr
        rw [Arr.atleast2d] at hr
        rw [List.eq_of_mem_replicate hr]
        rfl)
      (by simp [Arr.atleast2d])
  have hs : ∀ c : ℚ, vstack (.mat (List.replicate rows.length [c])) (.scalar c)
      = .ok (.mat (List.replicate rows.length [c] ++ [[c]])) := fun c =>
    vstack_rect (n := 1)
      (by
        intro r hr
        rw [Arr.atleast2d] at hr
        rw [List.eq_of_mem_replicate hr]
        rfl)
      (by simp [Arr.atleast2d])
  have hrep : ∀ c : ℚ, List.replicate rows.length [c] ++ [[c]]
      = List.replicate (rows ++ [I]).length [c] := by
    intro c
    rw [List.length_append, List.length_singleton, ← List.replicate_succ' rows.length [c]]
  unfold scanStep
  rw [getScanData_mkRScan]
  simp [rMatState, initData, mkRepeatedDoc, mkRRec, append2arr, getVal, setVal,
    ScanRecord.getKey, List.foldlM, Bind.bind, Except.bind, pure, Except.pure,
    hd, ht, hs, hrep]

theorem scanLoop_rTail (t : ℚ) (Is : List (List ℚ)) (n : Nat) :
    ∀ (rest : List (List ℚ)) (ks : List Nat) (k : Nat) (rows : List (List ℚ)),
      (∀ r ∈ rows, r.length = n) → (∀ I ∈ rest, I.length = n) →
      scanLoop (rMatState t Is ks rows) k (rest.map (mkRScan t))
        = .ok (rMatState t Is (ks ++ List.range' k rest.length) (rows ++ rest)) := by
  intro rest
  induction rest with
  | nil =>
      intro ks k rows _ _
      simp [scanLoop]
  | cons I rest ih =>
      intro ks k rows hrows hrest
      simp only [List.map_cons]
      unfold scanLoop
      rw [scanStep_rMat t Is ks k rows I n hrows (hrest I (by simp))]
      simp only [Bind.bind, Except.bind]
      rw [ih (ks ++ [k]) (k + 1) (rows ++ [I])
        (by
          intro r hr
          rcases List.mem_append.1 hr with hr | hr
          · exact hrows r hr
          · rw [List.mem_singleton.1 hr]
            exact hrest I (by simp))
        (fun I2 hmem => hrest I2 (by simp [hmem]))]
      rw [List.length_cons, List.range'_succ]
      rw [← List.append_cons, ← List.append_cons]

theorem scanLoop_rFull (t : ℚ) (Is : List (List ℚ)) (n : Nat)
    (hk : 2 ≤ Is.length) (hn : ∀ I ∈ Is, I.length = n) :
    scanLoop (initData (mkRepeatedDoc t Is)) 0 (Is.map (mkRScan t))
      = .ok (rMatState t Is (List.range' 0 Is.length) Is) := by
  cases Is with
  | nil => simp at hk
  | cons I1 Is1 =>
    cases Is1 with
    | nil => simp at hk
    | cons I2 rest =>
        simp only [List.map_cons]
        unfold scanLoop
        rw [scanStep_rSeed]
        simp only [Bind.bind, Except.bind]
        unfold scanLoop
        rw [scanStep_rVec t (I1 :: I2 :: rest) 0 1 I1 I2 n
          (hn I1 (by simp)) (hn I2 (by simp))]
        simp only [Bind.bind, Except.bind]
        rw [scanLoop_rTail t (I1 :: I2 :: rest) n rest [0, 1] 2 [I1, I2]
          (by
            intro r hr
            rcases List.mem_cons.1 hr with hr | hr
            · rw [hr]
              exact hn I1 (by simp)
            · rw [List.mem_singleton.1 hr]
              exact hn I2 (by simp))
          (fun I hm => hn I (by simp [hm]))]
        simp [List.range'_succ]

/-- The state after the empty-key removal phase of a repeated-scan
document: all incidental keys popped. -/
def rPopState (t : ℚ) (Is : List (List ℚ)) (ks : List Nat) (rows : List (List ℚ)) : Data :=
  { rMatState t Is ks rows with
    iscannb := none, idata := none, itime := none, i2Theta := none, iOmega := none,
    iPhi := none, iPsi := none, iX := none, iY := none, iZ := none }

theorem promote_rMat (t : ℚ) (Is : List (List ℚ)) (ks : List Nat) (rows : List (List ℚ)) :
    promote (rMatState t Is ks rows) = rMatState t Is ks rows := by
  unfold promote
  rw [if_neg]
  intro h
  have := h.2
  simp [rMatState, initData, mkRepeatedDoc] at this

theorem popRedundant_rMat (t : ℚ) (Is : List (List ℚ)) (ks : List Nat)
    (rows : List (List ℚ)) :
    popRedundant (rMatState t Is ks rows) = rPopState t Is ks rows := by
  unfold popRedundant
  simp [rMatState, rPopState, initData, mkRepeatedDoc, isEmptyPlaceholder]

theorem getArrForKey_mat_replicate {d : Data} {key : Key} {c : ℚ} {m : Nat}
    (hm : 2 ≤ m)
    (hv : getVal d key = some (.arr (.mat (List.replicate m [c])))) :
    getArrForKey d key = .ok (setVal d key (.arr (.vec [c]))) := by
  obtain ⟨m', rfl⟩ : ∃ m', m = m' + 2 := ⟨m - 2, by omega⟩
  have hsize : (Arr.mat (List.replicate (m' + 2) [c])).size = m' + 2 := by
    simp [Arr.size, List.map_replicate, List.sum_replicate, smul_eq_mul]
  unfold getArrForKey
  rw [hv]
  dsimp only
  rw [if_neg (by rw [hsize]; omega)]
  rw [if_pos ?side]
  case side =>
    constructor
    · simp
    · simp [List.replicate_succ]
  have hhead : (List.replicate (m' + 2) [c]).headD ([] : List ℚ) = [c] := by
    simp [List.replicate_succ]
  rw [hhead]

/-- The state after the collapse phase of a repeated-scan document: the
time basis and every stacked axis reduced to its first row. -/
def rCollapsedState (t : ℚ) (Is : List (List ℚ)) (ks : List Nat)
    (rows : List (List ℚ)) : Data :=
  { rPopState t Is ks rows with
    time := some (.arr (.vec [t])),
    twoTheta := some (.arr (.vec [10])), omega := some (.arr (.vec [5])),
    phi := some (.arr (.vec [0])), psi := some (.arr (.vec [0])),
    posx := some (.arr (.vec [0])), posy := some (.arr (.vec [0])),
    posz := some (.arr (.vec [0])) }

theorem collapse_rPop (t : ℚ) (Is : List (List ℚ)) (ks : List Nat)
    (rows : List (List ℚ)) (hrows2 : 2 ≤ rows.length) (hnb : 1 < Is.length) :
    collapsePhase Is.length (rPopState t Is ks rows)
      = .ok (rCollapsedState t Is ks rows) := by
  have st1 : getArrForKey (rPopState t Is ks rows) .time
      = .ok { rPopState t Is ks rows with time := some (.arr (.vec [t])) } := by
    rw [getArrForKey_mat_replicate (m := rows.length) hrows2
      (show getVal (rPopState t Is ks rows : Data) Key.time
          = some (.arr (.mat (List.replicate rows.length [t]))) from rfl)]
    rfl
  have st2 : getArrForKey
        { rPopState t Is ks rows with time := some (.arr (.vec [t])) } .twoTheta
      = .ok { rPopState t Is ks rows with
              time := some (.arr (.vec [t])), twoTheta := some (.arr (.vec [10])) } := by
    rw [getArrForKey_mat_replicate (m := rows.length) hrows2
      (show getVal ({ rPopState t Is ks rows with time := some (.arr (.vec [t])) } : Data) Key.twoTheta
          = some (.arr (.mat (List.replicate rows.length [10]))) from rfl)]
    rfl
  have st3 : getArrForKey
        { rPopState t Is ks rows with
          time := some (.arr (.vec [t])), twoTheta := some (.arr (.vec [10])) } .omega
      = .ok { rPopState t Is ks rows with
              time := some (.arr (.vec [t])), twoTheta := some (.arr (.vec [10])),
              omega := some (.arr (.vec [5])) } := by
    rw [getArrForKey_mat_replicate (m := rows.length) hrows2
      (show getVal ({ rPopState t Is ks rows with time := some (.arr (.vec [t])), twoTheta := some (.arr (.vec [10])) } : Data) Key.omega
          = some (.arr (.mat (List.replicate rows.length [5]))) from rfl)]
    rfl
  have st4 : getArrForKey
        { rPopState t Is ks rows with
          time := some (.arr (.vec [t])), twoTheta := some (.arr (.vec [10])),
          omega := some (.arr (.vec [5])) } .phi
      = .ok { rPopState t Is ks rows with
              time := some (.arr (.vec [t])), twoTheta := some (.arr (.vec [10])),
              omega := some (.arr (.vec [5])), phi := some (.arr (.vec [0])) } := by
    rw [getArrForKey_mat_replicate (m := rows.length) hrows2
      (show getVal ({ rPopState t Is ks rows with time := some (.arr (.vec [t])), twoTheta := some (.arr (.vec [10])), omega := some (.arr (.vec [5])) } : Data) Key.phi
          = some (.arr (.mat (List.replicate rows.length [0]))) from rfl)]
    rfl
  have st5 : getArrForKey
        { rPopState t Is ks rows with
          time := some (.arr (.vec [t])), twoTheta := some (.arr (.vec [10])),
          omega := some (.arr (.vec [5])), phi := some (.arr (.vec [0])) } .psi
      = .ok { rPopState t Is ks rows with
              time := some (.arr (.vec [t])), twoTheta := some (.arr (.vec [10])),
              omega := some (.arr (.vec [5])), phi := some (.arr (.vec [0])),
              psi := some (.arr (.vec [0])) } := by
    rw [getArrForKey_mat_replicate (m := rows.length) hrows2
      (show getVal ({ rPopState t Is ks rows with time := some (.arr (.vec [t])), twoTheta := some (.arr (.vec [10])), omega := some (.arr (.vec [5])), phi := some (.arr (.vec [0])) } : Data) Key.psi
          = some (.arr (.mat (List.replicate rows.length [0]))) from rfl)]
    rfl
  have st6 : getArrForKey
        { rPopState t Is ks rows with
          time := some (.arr (.vec [t])), twoTheta := some (.arr (.vec [10])),
          omega := some (.arr (.vec [5])), phi := some (.arr (.vec [0])),
          psi := some (.arr (.vec [0])) } .posx
      = .ok { rPopState t Is ks rows with
              time := some (.arr (.vec [t])), twoTheta := some (.arr (.vec [10])),
              omega := some (.arr (.vec [5])), phi := some (.arr (.vec [0])),
              psi := some (.arr (.vec [0])), posx := some (.arr (.vec [0])) } := by
    rw [getArrForKey_mat_replicate (m := rows.length) hrows2
      (show getVal ({ rPopState t Is ks rows with time := some (.arr (.vec [t])), twoTheta := some (.arr (.vec [10])), omega := some (.arr (.vec [5])), phi := some (.arr (.vec [0])), psi := some (.arr (.vec [0])) } : Data) Key.posx
          = some (.arr (.mat (List.replicate rows.length [0]))) from rfl)]
    rfl
  have st7 : getArrForKey
        { rPopState t Is ks rows with
          time := some (.arr (.vec [t])), twoTheta := some (.arr (.vec [10])),
          omega := some (.arr (.vec [5])), phi := some (.arr (.vec [0])),
          psi := some (.arr (.vec [0])), posx := some (.arr (.vec [0])) } .posy
      = .ok { rPopState t Is ks rows with
              time := some (.arr (.vec [t])), twoTheta := some (.arr (.vec [10])),
              omega := some (.arr (.vec [5])), phi := some (.arr (.vec [0])),
              psi := some (.arr (.vec [0])), posx := some (.arr (.vec [0])),
              posy := some (.arr (.vec [0])) } := by
    rw [getArrForKey_mat_replicate (m := rows.length) hrows2
      (show getVal ({ rPopState t Is ks rows with time := some (.arr (.vec [t])), twoTheta := some (.arr (.vec [10])), omega := some (.arr (.vec [5])), phi := some (.arr (.vec [0])), psi := some (.arr (.vec [0])), posx := some (.arr (.vec [0])) } : Data) Key.posy
          = some (.arr (.mat (List.replicate rows.length [0]))) from rfl)]
    rfl
  have st8 : getArrForKey
        { rPopState t Is ks rows with
          time := some (.arr (.vec [t])), twoTheta := some (.arr (.vec [10])),
          omega := some (.arr (.vec [5])), phi := some (.arr (.vec [0])),
          psi := some (.arr (.vec [0])), posx := some (.arr (.vec [0])),
          posy := some (.arr (.vec [0])) } .posz
      = .ok (rCollapsedState t Is ks rows) := by
    rw [getArrForKey_mat_replicate (m := rows.length) hrows2
      (show getVal ({ rPopState t Is ks rows with time := some (.arr (.vec [t])), twoTheta := some (.arr (.vec [10])), omega := some (.arr (.vec [5])), phi := some (.arr (.vec [0])), psi := some (.arr (.vec [0])), posx := some (.arr (.vec [0])), posy := some (.arr (.vec [0])) } : Data) Key.posz
          = some (.arr (.mat (List.replicate rows.length [0]))) from rfl)]
    rfl
  have hmt : ({ rPopState t Is ks rows with
      time := some (.arr (.vec [t])) } : Data).measType ≠ "Area measurement" := by
    rw [show ({ rPopState t Is ks rows with
      time := some (.arr (.vec [t])) } : Data).measType = "Repeated scan" from rfl]
    decide
  unfold collapsePhase
  rw [st1]
  simp only [Bind.bind, Except.bind]
  rw [if_pos hmt, st2]
  simp only [Bind.bind, Except.bind]
  rw [st3]
  simp only [Bind.bind, Except.bind]
  rw [if_pos hnb]
  simp only [List.foldlM_cons, List.foldlM_nil, Bind.bind, Except.bind]
  rw [st4]
  simp only [Bind.bind, Except.bind]
  rw [st5]
  simp only [Bind.bind, Except.bind]
  rw [st6]
  simp only [Bind.bind, Except.bind]
  rw [st7]
  simp only [Bind.bind, Except.bind]
  rw [st8]
  rfl

theorem sumFold (n : Nat) :
    ∀ (rs : List (List ℚ)) (acc : List ℚ), acc.length = n → (∀ r ∈ rs, r.length = n) →
      rs.foldlM (fun acc row => broadcastOp (· + ·) acc row) acc
        = .ok (rs.foldl (fun acc row => List.zipWith (· + ·) acc row) acc) := by
  intro rs
  induction rs with
  | nil =>
      intro acc _ _
      rfl
  | cons r rs ih =>
      intro acc hacc hall
      rw [List.foldlM_cons]
      have hbop : broadcastOp (· + ·) acc r = .ok (List.zipWith (· + ·) acc r) := by
        unfold broadcastOp
        rw [if_pos (by rw [hacc, hall r (by simp)])]
      rw [hbop]
      simp only [Bind.bind, Except.bind]
      rw [List.foldl_cons]
      refine ih _ ?_ (fun r2 h => hall r2 (by simp [h]))
      rw [List.length_zipWith, hacc, hall r (by simp)]
      exact min_self n

theorem getArrForKey_vec_single {d : Data} {key : Key} {c : ℚ} {base : Arr}
    (hv : getVal d key = some (.arr (.vec [c]))) (hbase : d.data = some (.arr base)) :
    getArrForKey d key = .ok (setVal d key (.arr (onesLikeMul base c))) := by
  unfold getArrForKey
  rw [hv]
  dsimp only
  rw [if_pos (show (Arr.vec [c]).size = 1 from rfl)]
  dsimp only [singleValue]
  rw [hbase]

/-- The state after `data['data'][0] / len(data['scannb'])` replaced the
intensity stack. -/
def rMeanState (t : ℚ) (Is : List (List ℚ)) (ks : List Nat) (rows : List (List ℚ)) : Data :=
  { rCollapsedState t Is ks rows with
    data := some (.arr (.vec (meanRows rows))) }

/-- The state after the second collapse pass: every axis broadcast back to
the shape of the averaged intensity row. -/
def rAxesState (t : ℚ) (Is : List (List ℚ)) (ks : List Nat) (rows : List (List ℚ)) : Data :=
  { rMeanState t Is ks rows with
    twoTheta := some (.arr (.vec ((meanRows rows).map (fun _ => (10 : ℚ))))),
    omega := some (.arr (.vec ((meanRows rows).map (fun _ => (5 : ℚ))))),
    phi := some (.arr (.vec ((meanRows rows).map (fun _ => (0 : ℚ))))),
    psi := some (.arr (.vec ((meanRows rows).map (fun _ => (0 : ℚ))))),
    posx := some (.arr (.vec ((meanRows rows).map (fun _ => (0 : ℚ))))),
    posy := some (.arr (.vec ((meanRows rows).map (fun _ => (0 : ℚ))))),
    posz := some (.arr (.vec ((meanRows rows).map (fun _ => (0 : ℚ))))) }

/-- The state after the whole `Repeated scan` block: time rescaled by the
scan count and the per-scan index dropped. -/
def rFinalState (t : ℚ) (Is : List (List ℚ)) (rows : List (List ℚ)) : Data :=
  { rAxesState t Is [] rows with
    time := some (.arr (.vec [t * (rows.length : ℚ)])),
    scannb := none }

theorem axesFold_rMean (t : ℚ) (Is : List (List ℚ)) (ks : List Nat)
    (rows : List (List ℚ)) :
    [Key.twoTheta, Key.omega, Key.phi, Key.psi, Key.posx, Key.posy,
     Key.posz].foldlM getArrForKey (rMeanState t Is ks rows)
      = .ok (rAxesState t Is ks rows) := by
  have s1 : getArrForKey (rMeanState t Is ks rows) .twoTheta
      = .ok { rMeanState t Is ks rows with
              twoTheta := some (.arr (.vec ((meanRows rows).map (fun _ => (10 : ℚ))))) } := by
    rw [getArrForKey_vec_single
      (show getVal (rMeanState t Is ks rows) Key.twoTheta
          = some (.arr (.vec [(10 : ℚ)])) from rfl)
      (show (rMeanState t Is ks rows).data
          = some (.arr (.vec (meanRows rows))) from rfl)]
    rfl
  have s2 : getArrForKey
        { rMeanState t Is ks rows with
          twoTheta := some (.arr (.vec ((meanRows rows).map (fun _ => (10 : ℚ))))) } .omega
      = .ok { rMeanState t Is ks rows with
              twoTheta := some (.arr (.vec ((meanRows rows).map (fun _ => (10 : ℚ))))),
              omega := some (.arr (.vec ((meanRows rows).map (fun _ => (5 : ℚ))))) } := by
    rw [getArrForKey_vec_single
      (show getVal ({ rMeanState t Is ks rows with
          twoTheta := some (.arr (.vec ((meanRows rows).map (fun _ => (10 : ℚ))))) } : Data)
          Key.omega = some (.arr (.vec [(5 : ℚ)])) from rfl)
      (show ({ rMeanState t Is ks rows with
          twoTheta := some (.arr (.vec ((meanRows rows).map (fun _ => (10 : ℚ))))) } : Data).data
          = some (.arr (.vec (meanRows rows))) from rfl)]
    rfl
  have s3 : getArrForKey
        { rMeanState t Is ks rows with
          twoTheta := some (.arr (.vec ((meanRows rows).map (fun _ => (10 : ℚ))))),
          omega := some (.arr (.vec ((meanRows rows).map (fun _ => (5 : ℚ))))) } .phi
      = .ok { rMeanState t Is ks rows with
              twoTheta := some (.arr (.vec ((meanRows rows).map (fun _ => (10 : ℚ))))),
              omega := some (.arr (.vec ((meanRows rows).map (fun _ => (5 : ℚ))))),
              phi := some (.arr (.vec ((meanRows rows).map (fun _ => (0 : ℚ))))) } := by
    rw [getArrForKey_vec_single
      (show getVal ({ rMeanState t Is ks rows with
          twoTheta := some (.arr (.vec ((meanRows rows).map (fun _ => (10 : ℚ))))),
          omega := some (.arr (.vec ((meanRows rows).map (fun _ => (5 : ℚ))))) } : Data)
          Key.phi = some (.arr (.vec [(0 : ℚ)])) from rfl)
      (show ({ rMeanState t Is ks rows with
          twoTheta := some (.arr (.vec ((meanRows rows).map (fun _ => (10 : ℚ))))),
          omega := some (.arr (.vec ((meanRows rows).map (fun _ => (5 : ℚ))))) } : Data).data
          = some (.arr (.vec (meanRows rows))) from rfl)]
    rfl
  have s4 : getArrForKey
        { rMeanState t Is ks rows with
          twoTheta := some (.arr (.vec ((meanRows rows).map (fun _ => (10 : ℚ))))),
          omega := some (.arr (.vec ((meanRows rows).map (fun _ => (5 : ℚ))))),
          phi := some (.arr (.vec ((meanRows rows).map (fun _ => (0 : ℚ))))) } .psi
      = .ok { rMeanState t Is ks rows with
              twoTheta := some (.arr (.vec ((meanRows rows).map (fun _ => (10 : ℚ))))),
              omega := some (.arr (.vec ((meanRows rows).map (fun _ => (5 : ℚ))))),
              phi := some (.arr (.vec ((meanRows rows).map (fun _ => (0 : ℚ))))),
              psi := some (.arr (.vec ((meanRows rows).map (fun _ => (0 : ℚ))))) } := by
    rw [getArrForKey_vec_single
      (show getVal ({ rMeanState t Is ks rows with
          twoTheta := some (.arr (.vec ((meanRows rows).map (fun _ => (10 : ℚ))))),
          omega := some (.arr (.vec ((meanRows rows).map (fun _ => (5 : ℚ))))),
          phi := some (.arr (.vec ((meanRows rows).map (fun _ => (0 : ℚ))))) } : Data)
          Key.psi = some (.arr (.vec [(0 : ℚ)])) from rfl)
      (show ({ rMeanState t Is ks rows with
          twoTheta := some (.arr (.vec ((meanRows rows).map (fun _ => (10 : ℚ))))),
          omega := some (.arr (.vec ((meanRows rows).map (fun _ => (5 : ℚ))))),
          phi := some (.arr (.vec ((meanRows rows).map (fun _ => (0 : ℚ))))) } : Data).data
          = some (.arr (.vec (meanRows rows))) from rfl)]
    rfl
  have s5 : getArrForKey
        { rMeanState t Is ks rows with
          twoTheta := some (.arr (.vec ((meanRows rows).map (fun _ => (10 : ℚ))))),
          omega := some (.arr (.vec ((meanRows rows).map (fun _ => (5 : ℚ))))),
          phi := some (.arr (.vec ((meanRows rows).map (fun _ => (0 : ℚ))))),
          psi := some (.arr (.vec ((meanRows rows).map (fun _ => (0 : ℚ))))) } .posx
      = .ok { rMeanState t Is ks rows with
              twoTheta := some (.arr (.vec ((meanRows rows).map (fun _ => (10 : ℚ))))),
              omega := some (.arr (.vec ((meanRows rows).map (fun _ => (5 : ℚ))))),
              phi := some (.arr (.vec ((meanRows rows).map (fun _ => (0 : ℚ))))),
              psi := some (.arr (.vec ((meanRows rows).map (fun _ => (0 : ℚ))))),
              posx := some (.arr (.vec ((meanRows rows).map (fun _ => (0 : ℚ))))) } := by
    rw [getArrForKey_vec_single
      (show getVal ({ rMeanState t Is ks rows with
          twoTheta := some (.arr (.vec ((meanRows rows).map (fun _ => (10 : ℚ))))),
          omega := some (.arr (.vec ((meanRows rows).map (fun _ => (5 : ℚ))))),
          phi := some (.arr (.vec ((meanRows rows).map (fun _ => (0 : ℚ))))),
          psi := some (.arr (.vec ((meanRows rows).map (fun _ => (0 : ℚ))))) } : Data)
          Key.posx = some (.arr (.vec [(0 : ℚ)])) from rfl)
      (show ({ rMeanState t Is ks rows with
          twoTheta := some (.arr (.vec ((meanRows rows).map (fun _ => (10 : ℚ))))),
          omega := some (.arr (.vec ((meanRows rows).map (fun _ => (5 : ℚ))))),
          phi := some (.arr (.vec ((meanRows rows).map (fun _ => (0 : ℚ))))),
          psi := some (.arr (.vec ((meanRows rows).map (fun _ => (0 : ℚ))))) } : Data).data
          = some (.arr (.vec (meanRows rows))) from rfl)]
    rfl
  have s6 : getArrForKey
        { rMeanState t Is ks rows with
          twoTheta := some (.arr (.vec ((meanRows rows).map (fun _ => (10 : ℚ))))),
          omega := some (.arr (.vec ((meanRows rows).map (fun _ => (5 : ℚ))))),
          phi := some (.arr (.vec ((meanRows rows).map (fun _ => (0 : ℚ))))),
          psi := some (.arr (.vec ((meanRows rows).map (fun _ => (0 : ℚ))))),
          posx := some (.arr (.vec ((meanRows rows).map (fun _ => (0 : ℚ))))) } .posy
      = .ok { rMeanState t Is ks rows with
              twoTheta := some (.arr (.vec ((meanRows rows).map (fun _ => (10 : ℚ))))),
              omega := some (.arr (.vec ((meanRows rows).map (fun _ => (5 : ℚ))))),
              phi := some (.arr (.vec ((meanRows rows).map (fun _ => (0 : ℚ))))),
              psi := some (.arr (.vec ((meanRows rows).map (fun _ => (0 : ℚ))))),
              posx := some (.arr (.vec ((meanRows rows).map (fun _ => (0 : ℚ))))),
              posy := some (.arr (.vec ((meanRows rows).map (fun _ => (0 : ℚ))))) } := by
    rw [getArrForKey_vec_single
      (show getVal ({ rMeanState t Is ks rows with
          twoTheta := some (.arr (.vec ((meanRows rows).map (fun _ => (10 : ℚ))))),
          omega := some (.arr (.vec ((meanRows rows).map (fun _ => (5 : ℚ))))),
          phi := some (.arr (.vec ((meanRows rows).map (fun _ => (0 : ℚ))))),
          psi := some (.arr (.vec ((meanRows rows).map (fun _ => (0 : ℚ))))),
          posx := some (.arr (.vec ((meanRows rows).map (fun _ => (0 : ℚ))))) } : Data)
          Key.posy = some (.arr (.vec [(0 : ℚ)])) from rfl)
      (show ({ rMeanState t Is ks rows with
          twoTheta := some (.arr (.vec ((meanRows rows).map (fun _ => (10 : ℚ))))),
          omega := some (.arr (.vec ((meanRows rows).map (fun _ => (5 : ℚ))))),
          phi := some (.arr (.vec ((meanRows rows).map (fun _ => (0 : ℚ))))),
          psi := some (.arr (.vec ((meanRows rows).map (fun _ => (0 : ℚ))))),
          posx := some (.arr (.vec ((meanRows rows).map (fun _ => (0 : ℚ))))) } : Data).data
          = some (.arr (.vec (meanRows rows))) from rfl)]
    rfl
  have s7 : getArrForKey
        { rMeanState t Is ks rows with
          twoTheta := some (.arr (.vec ((meanRows rows).map (fun _ => (10 : ℚ))))),
          omega := some (.arr (.vec ((meanRows rows).map (fun _ => (5 : ℚ))))),
          phi := some (.arr (.vec ((meanRows rows).map (fun _ => (0 : ℚ))))),
          psi := some (.arr (.vec ((meanRows rows).map (fun _ => (0 : ℚ))))),
          posx := some (.arr (.vec ((meanRows rows).map (fun _ => (0 : ℚ))))),
          posy := some (.arr (.vec ((meanRows rows).map (fun _ => (0 : ℚ))))) } .posz
      = .ok (rAxesState t Is ks rows) := by
    rw [getArrForKey_vec_single
      (show getVal ({ rMeanState t Is ks rows with
          twoTheta := some (.arr (.vec ((meanRows rows).map (fun _ => (10 : ℚ))))),
          omega := some (.arr (.vec ((meanRows rows).map (fun _ => (5 : ℚ))))),
          phi := some (.arr (.vec ((meanRows rows).map (fun _ => (0 : ℚ))))),
          psi := some (.arr (.vec ((meanRows rows).map (fun _ => (0 : ℚ))))),
          posx := some (.arr (.vec ((meanRows rows).map (fun _ => (0 : ℚ))))),
          posy := some (.arr (.vec ((meanRows rows).map (fun _ => (0 : ℚ))))) } : Data)
          Key.posz = some (.arr (.vec [(0 : ℚ)])) from rfl)
      (show ({ rMeanState t Is ks rows with
          twoTheta := some (.arr (.vec ((meanRows rows).map (fun _ => (10 : ℚ))))),
          omega := some (.arr (.vec ((meanRows rows).map (fun _ => (5 : ℚ))))),
          phi := some (.arr (.vec ((meanRows rows).map (fun _ => (0 : ℚ))))),
          psi := some (.arr (.vec ((meanRows rows).map (fun _ => (0 : ℚ))))),
          posx := some (.arr (.vec ((meanRows rows).map (fun _ => (0 : ℚ))))),
          posy := some (.arr (.vec ((meanRows rows).map (fun _ => (0 : ℚ))))) } : Data).data
          = some (.arr (.vec (meanRows rows))) from rfl)]
    rfl
  simp only [List.foldlM_cons, List.foldlM_nil, Bind.bind, Except.bind]
  rw [s1]
  simp only [Bind.bind, Except.bind]
  rw [s2]
  simp only [Bind.bind, Except.bind]
  rw [s3]
  simp only [Bind.bind, Except.bind]
  rw [s4]
  simp only [Bind.bind, Except.bind]
  rw [s5]
  simp only [Bind.bind, Except.bind]
  rw [s6]
  simp only [Bind.bind, Except.bind]
  rw [s7]
  rfl

theorem repeatedBlock_eq (d : Data) (ks : List Nat) (a : Arr)
    (hmt : d.measType = "Repeated scan") (hnb : d.scannb = some ks)
    (hdata : d.data = some (.arr a)) :
    repeatedBlock d = (sumIntoFirst a ks.length >>= fun summed =>
      summed.pyIndex 0 >>= fun first =>
      ([Key.twoTheta, Key.omega, Key.phi, Key.psi, Key.posx, Key.posy,
        Key.posz].foldlM getArrForKey
          { d with data := some (.arr (divByCount first ks.length)) }) >>= fun d2 =>
      match d2.time with
      | some (.arr tb) =>
          .ok { d2 with time := some (.arr (tb.scale (ks.length : ℚ))), scannb := none }
      | some (.pylist _) => .error "list repetition not modelled"
      | none => .error "KeyError: time") := by
  unfold repeatedBlock
  rw [if_pos hmt, hnb, hdata]

theorem repeated_rCollapsed (t : ℚ) (Is : List (List ℚ)) (ks : List Nat)
    (r : List ℚ) (rs : List (List ℚ)) (n : Nat)
    (hks : ks.length = (r :: rs).length)
    (hlen : ∀ x ∈ r :: rs, x.length = n) :
    repeatedBlock (rCollapsedState t Is ks (r :: rs))
      = .ok (rFinalState t Is (r :: rs)) := by
  have hsum : sumIntoFirst (.mat (r :: rs)) ((r :: rs).length)
      = .ok (.mat (sumRows (r :: rs) :: rs)) := by
    unfold sumIntoFirst
    dsimp only
    rw [if_pos (le_refl (r :: rs).length)]
    rw [show (r :: rs).length - 1 = rs.length from by simp]
    rw [List.take_length]
    rw [sumFold n rs r (hlen r (by simp)) (fun x hx => hlen x (by simp [hx]))]
    rfl
  rw [repeatedBlock_eq (rCollapsedState t Is ks (r :: rs)) ks (.mat (r :: rs)) rfl rfl rfl]
  rw [hks]
  rw [hsum]
  simp only [Bind.bind, Except.bind]
  rw [show Arr.pyIndex (.mat (sumRows (r :: rs) :: rs)) 0
      = .ok (.vec (sumRows (r :: rs))) from rfl]
  simp only [Bind.bind, Except.bind]
  rw [show ({ rCollapsedState t Is ks (r :: rs) with
    data := some (.arr (divByCount (.vec (sumRows (r :: rs))) ((r :: rs).length))) } : Data)
      = rMeanState t Is ks (r :: rs) from rfl]
  rw [axesFold_rMean]
  simp only [Bind.bind, Except.bind]
  rw [show (rAxesState t Is ks (r :: rs)).time = some (.arr (.vec [t])) from rfl]
  rfl

/-- The full result of decoding a repeated-scan document: the averaged
data, the rescaled time, the wavelength block and the `2Theta` labels. -/
def rEndState (t : ℚ) (rows : List (List ℚ)) : Data :=
  { wavelengthPhase (mkRepeatedDoc t rows) (rFinalState t rows rows) with
    xlabel := some "2Theta",
    x := some (.arr (.vec ((meanRows rows).map (fun _ => (10 : ℚ))))) }

theorem scanAxisLabels_2theta (d : Data) (v : Val)
    (hsa : d.scanAxis = some "2Theta") (hmt : d.measType = "Repeated scan")
    (h2t : d.twoTheta = some v) :
    scanAxisLabels d = .ok { d with xlabel := some "2Theta", x := some v } := by
  unfold scanAxisLabels
  nth_rewrite 1 [hsa]
  dsimp only
  rw [if_neg (show ¬ ("2Theta" = "Gonio") from by decide)]
  rw [if_pos (show ("2Theta" = "2Theta" ∨ "2Theta" = "2Theta-Omega") from Or.inl rfl)]
  rw [if_pos (show d.measType = "Scan" ∨ d.measType = "Repeated scan" from Or.inr hmt)]
  unfold assignX
  rw [show getVal ({ d with xlabel := some "2Theta" } : Data) Key.twoTheta
      = some v from h2t]

theorem stepAxisLabels_none (d : Data) (hst : d.stepAxis = none) :
    stepAxisLabels d = d := by
  unfold stepAxisLabels
  rw [hst]

theorem areaPhase_skip (d : Data) (hmt : ¬ d.measType = "Area measurement") :
    areaPhase d = .ok d := by
  unfold areaPhase
  rw [if_neg hmt]
  rfl

theorem labelsPhase_repeated (nb : Nat) (d : Data) (v : Val) (hnb : 0 < nb)
    (hsa : d.scanAxis = some "2Theta") (hmt : d.measType = "Repeated scan")
    (h2t : d.twoTheta = some v) (hst : d.stepAxis = none) :
    labelsPhase nb d = .ok { d with xlabel := some "2Theta", x := some v } := by
  unfold labelsPhase
  rw [if_pos hnb]
  rw [scanAxisLabels_2theta d v hsa hmt h2t]
  simp only [Bind.bind, Except.bind]
  rw [stepAxisLabels_none ({ d with xlabel := some "2Theta", x := some v } : Data)
    (show ({ d with xlabel := some "2Theta", x := some v } : Data).stepAxis
        = none from hst)]
  rfl

theorem read_xrdml_repeated (t : ℚ) (r : List ℚ) (rs : List (List ℚ)) (n : Nat)
    (h2 : 2 ≤ (r :: rs).length) (hn : ∀ I ∈ r :: rs, I.length = n) :
    read_xrdml (mkRepeatedDoc t (r :: rs)) = .ok (rEndState t (r :: rs)) := by
  unfold read_xrdml
  rw [show (mkRepeatedDoc t (r :: rs)).scans = (r :: rs).map (mkRScan t) from rfl]
  rw [List.length_map]
  rw [scanLoop_rFull t (r :: rs) n h2 hn]
  simp only [Bind.bind, Except.bind]
  rw [promote_rMat, popRedundant_rMat]
  rw [collapse_rPop t (r :: rs) (List.range' 0 (r :: rs).length) (r :: rs) h2 h2]
  simp only [Bind.bind, Except.bind]
  rw [repeated_rCollapsed t (r :: rs) (List.range' 0 (r :: rs).length) r rs n
    (by rw [List.length_range']) hn]
  simp only [Bind.bind, Except.bind]
  rw [labelsPhase_repeated (r :: rs).length
    (wavelengthPhase (mkRepeatedDoc t (r :: rs)) (rFinalState t (r :: rs) (r :: rs)))
    (Val.arr (.vec ((meanRows (r :: rs)).map (fun _ => (10 : ℚ)))))
    (Nat.succ_pos rs.length) rfl rfl rfl rfl]
  dsimp only
  rw [show ({ wavelengthPhase (mkRepeatedDoc t (r :: rs)) (rFinalState t (r :: rs) (r :: rs)) with
    xlabel := some "2Theta",
    x := some (Val.arr (.vec ((meanRows (r :: rs)).map (fun _ => (10 : ℚ))))) } : Data)
      = rEndState t (r :: rs) from rfl]
  rw [areaPhase_skip (rEndState t (r :: rs))
    (by rw [show (rEndState t (r :: rs)).measType = "Repeated scan" from rfl]; decide)]

/-- C3 (amended): for a `Repeated scan` document whose `k >= 2` primary
scans carry counts-per-second intensity rows of a common length and a
common single-scan counting time, decoding succeeds, the returned
intensity is the element-wise mean of the rows, the time entry is `k`
times the single-scan counting time, and the per-scan index `scannb` is
removed from the dictionary. -/
theorem C3_repeated_scan_mean (t : ℚ) (Is : List (List ℚ)) (n : Nat)
    (h2 : 2 ≤ Is.length) (hn : ∀ I ∈ Is, I.length = n) :
    (okData (read_xrdml (mkRepeatedDoc t Is))).map Data.data
        = some (some (.arr (.vec (meanRows Is)))) ∧
    (okData (read_xrdml (mkRepeatedDoc t Is))).map Data.time
        = some (some (.arr (.vec [t * (Is.length : ℚ)]))) ∧
    (okData (read_xrdml (mkRepeatedDoc t Is))).map Data.scannb = some none := by
  cases Is with
  | nil => simp at h2
  | cons r rs =>
      rw [read_xrdml_repeated t r rs n h2 hn]
      exact ⟨rfl, rfl, rfl⟩

/-- Witness: two repeated scans of two samples each satisfy all the
hypotheses of `C3_repeated_scan_mean`. -/
theorem C3_repeated_scan_mean_witness :
    (2 ≤ ([[1, 2], [3, 4]] : List (List ℚ)).length) ∧
    ((okData (read_xrdml (mkRepeatedDoc 1 [[1, 2], [3, 4]]))).map Data.data
        = some (some (.arr (.vec (meanRows [[1, 2], [3, 4]])))) ∧
     (okData (read_xrdml (mkRepeatedDoc 1 [[1, 2], [3, 4]]))).map Data.time
        = some (some (.arr (.vec [(1 : ℚ) * ((([[1, 2], [3, 4]] : List (List ℚ)).length : Nat) : ℚ)]))) ∧
     (okData (read_xrdml (mkRepeatedDoc 1 [[1, 2], [3, 4]]))).map Data.scannb
        = some none) :=
  ⟨by decide, C3_repeated_scan_mean 1 [[1, 2], [3, 4]] 2 (by decide) (by decide)⟩

end Xrdtools
